import Mathlib

/-!
Verification of the ScoutMind extension's agent pipeline against its
natural-language specification.

The development shallowly embeds the JavaScript/TypeScript sources:

* `JScore` — a model of the JavaScript value universe and of the platform
  primitives the agents use (string normalisation, `parseFloat`, `new URL`,
  `new Date(...).toISOString()`, `String(x)`, `typeof x`).
* `ValidatorJS` / `ValidatorTS` — the two `ValidatorAgent.validateData`
  implementations (agents/validator-agent.js and
  scout-mind-extension/src/agents/validatorAgent.ts).
* `Bridge` — `LLMBridge.query` from scout-mind-extension/src/llm/llmBridge.ts.
* `Planner` — `PlannerAgent.parseExtractionPlan` / `createExtractionPlan`
  from agents/planner-agent.js.
* `Recovery` — `ErrorRecoveryAgent.attemptRecovery` / `testSelector` from
  agents/error-recovery-agent.js.
* `Sel` — `SelectorAgent.convertSelector` (both the selectorAgent.ts and the
  agents/selector-agent.js variants).
* `Orch` — `AgentOrchestrator.processRequest` from agents/orchestrator.js.

Stateful code is embedded by explicit state passing; every JavaScript `throw`
is modelled by the `Except.error` constructor; collaborator calls (LLM
providers, content-script messaging, offscreen fetching) are parameters of
the embedded functions.
-/

namespace JScore

/-- The JavaScript whitespace characters relevant to `\s`, `trim` and the
validator's `replace(/\s+/g, ' ')`. -/
def isWsC (c : Char) : Bool :=
  c = ' ' ∨ c = '\t' ∨ c = '\n' ∨ c = '\r' ∨ c = '\x0b' ∨ c = '\x0c'

/-- Maps every whitespace character to a plain space, leaves the rest alone. -/
def wsToSpace (c : Char) : Char := if isWsC c then ' ' else c

/-- Join a list of chunks with a single separator element between them. -/
def joinSep (x : α) : List (List α) → List α
  | [] => []
  | [c] => c
  | c :: c' :: rest => c ++ x :: joinSep x (c' :: rest)

/-- Model of `s.trim().replace(/\s+/g, ' ')` (the validator's string
normalisation): the whitespace-separated words of `s` joined by single
spaces. -/
def normWsL (l : List Char) : List Char :=
  joinSep ' ' (((l.map wsToSpace).splitOn ' ').filter (· ≠ []))

def normWs (s : String) : String := ⟨normWsL s.data⟩

/-- `true` when the string contains no (JavaScript) whitespace at all. -/
def noWsL (l : List Char) : Bool := l.all (fun c => ¬ isWsC c)

def noWs (s : String) : Bool := noWsL s.data

theorem wsToSpace_eq_self {c : Char} (h : isWsC c = false) : wsToSpace c = c := by
  simp [wsToSpace, h]

theorem joinSep_eq_intercalate (x : α) :
    ∀ ls : List (List α), joinSep x ls = [x].intercalate ls := by
  intro ls
  induction ls with
  | nil => simp [joinSep, List.intercalate, List.intersperse]
  | cons c rest ih =>
    cases rest with
    | nil => simp [joinSep, List.intercalate, List.intersperse]
    | cons c' rest' =>
      simp only [joinSep, ih]
      simp [List.intercalate, List.intersperse]

/-- Every element of a `splitOnP` chunk comes from the original list and does
not satisfy the splitting predicate. -/
theorem splitOnP_chunk_prop {α : Type} (p : α → Bool) :
    ∀ (l : List α) (c : List α), c ∈ l.splitOnP p → ∀ a ∈ c, a ∈ l ∧ ¬ p a := by
  intro l
  induction l with
  | nil =>
    intro c hc a ha
    simp [List.splitOnP_nil] at hc
    subst hc; simp at ha
  | cons x xs ih =>
    intro c hc a ha
    rw [List.splitOnP_cons] at hc
    by_cases hx : p x
    · simp [hx] at hc
      rcases hc with hc | hc
      · subst hc; simp at ha
      · have := ih c hc a ha
        exact ⟨List.mem_cons_of_mem _ this.1, this.2⟩
    · simp [hx] at hc
      rcases hxs : xs.splitOnP p with _ | ⟨h0, t0⟩
      · exact absurd hxs (List.splitOnP_ne_nil p xs)
      · rw [hxs] at hc
        simp only [List.modifyHead, List.mem_cons] at hc
        rcases hc with hc | hc
        · subst hc
          rcases List.mem_cons.mp ha with ha | ha
          · subst ha; exact ⟨List.mem_cons_self _ _, fun hpa => hx hpa⟩
          · have := ih h0 (by rw [hxs]; exact List.mem_cons_self _ _) a ha
            exact ⟨List.mem_cons_of_mem _ this.1, this.2⟩
        · have := ih c (by rw [hxs]; exact List.mem_cons_of_mem _ hc) a ha
          exact ⟨List.mem_cons_of_mem _ this.1, this.2⟩

/-- Elements of the non-empty chunks used by `normWsL` contain no whitespace. -/
theorem chunks_no_ws (l : List Char) :
    ∀ c ∈ ((l.map wsToSpace).splitOn ' ').filter (· ≠ []), ∀ a ∈ c, isWsC a = false := by
  intro c hc a ha
  have hc' := List.mem_of_mem_filter hc
  have hprop := splitOnP_chunk_prop (fun b => b == ' ') (l.map wsToSpace) c hc' a ha
  have hne : a ≠ ' ' := by simpa using hprop.2
  rcases List.mem_map.mp hprop.1 with ⟨b, _, hb⟩
  by_cases hwb : isWsC b
  · exfalso; apply hne; rw [← hb]; simp [wsToSpace, hwb]
  · rw [← hb, wsToSpace_eq_self (by simpa using hwb)]
    simpa using hwb

theorem mem_joinSep {x : α} :
    ∀ {ls : List (List α)} {a : α}, a ∈ joinSep x ls → a = x ∨ ∃ c ∈ ls, a ∈ c := by
  intro ls
  induction ls with
  | nil => intro a ha; simp [joinSep] at ha
  | cons c rest ih =>
    intro a ha
    cases rest with
    | nil =>
      right; exact ⟨c, List.mem_cons_self _ _, by simpa [joinSep] using ha⟩
    | cons c' rest' =>
      simp only [joinSep, List.mem_append, List.mem_cons] at ha
      rcases ha with ha | ha | ha
      · right; exact ⟨c, List.mem_cons_self _ _, ha⟩
      · left; exact ha
      · rcases ih ha with h | ⟨d, hd, had⟩
        · left; exact h
        · right; exact ⟨d, List.mem_cons_of_mem _ hd, had⟩

theorem map_eq_self_of_forall {f : α → α} :
    ∀ {l : List α}, (∀ a ∈ l, f a = a) → l.map f = l := by
  intro l
  induction l with
  | nil => intro _; rfl
  | cons a t ih =>
    intro h
    simp only [List.map_cons]
    rw [h a (List.mem_cons_self _ _), ih (fun b hb => h b (List.mem_cons_of_mem _ hb))]

/-- The output of `normWsL` is unchanged by the whitespace-to-space map:
its only whitespace characters are the single separating spaces. -/
theorem map_wsToSpace_normWsL (l : List Char) :
    (normWsL l).map wsToSpace = normWsL l := by
  apply map_eq_self_of_forall
  intro a ha
  rcases mem_joinSep ha with h | ⟨c, hc, hac⟩
  · subst h; decide
  · exact wsToSpace_eq_self (chunks_no_ws l c hc a hac)

theorem normWsL_idem (l : List Char) : normWsL (normWsL l) = normWsL l := by
  rcases hch : ((l.map wsToSpace).splitOn ' ').filter (· ≠ []) with _ | ⟨c, rest⟩
  · -- the all-whitespace case: the first pass already returns []
    have h1 : normWsL l = [] := by rw [normWsL, hch]; rfl
    rw [h1, normWsL]
    rfl
  · have hne : ((l.map wsToSpace).splitOn ' ').filter (· ≠ []) ≠ [] := by
      rw [hch]; exact List.cons_ne_nil _ _
    have hsplit : (normWsL l).splitOn ' ' =
        ((l.map wsToSpace).splitOn ' ').filter (· ≠ []) := by
      have hx : ∀ d ∈ ((l.map wsToSpace).splitOn ' ').filter (· ≠ []), ' ' ∉ d := by
        intro d hd hmem
        have := chunks_no_ws l d hd ' ' hmem
        simp [isWsC] at this
      calc (normWsL l).splitOn ' '
          = ([' '].intercalate (((l.map wsToSpace).splitOn ' ').filter (· ≠ []))).splitOn ' ' := by
            rw [normWsL, joinSep_eq_intercalate]
        _ = ((l.map wsToSpace).splitOn ' ').filter (· ≠ []) :=
            List.splitOn_intercalate _ ' ' hx hne
    have hfilter : (((normWsL l).splitOn ' ').filter (· ≠ [])) =
        ((l.map wsToSpace).splitOn ' ').filter (· ≠ []) := by
      rw [hsplit, List.filter_filter]
      apply List.filter_congr
      intro d _
      simp
    show joinSep ' ' ((((normWsL l).map wsToSpace).splitOn ' ').filter (· ≠ [])) = normWsL l
    rw [map_wsToSpace_normWsL, hfilter]
    rfl

theorem normWs_idem (s : String) : normWs (normWs s) = normWs s := by
  show (⟨normWsL (⟨normWsL s.data⟩ : String).data⟩ : String) = (⟨normWsL s.data⟩ : String)
  rw [show (⟨normWsL s.data⟩ : String).data = normWsL s.data from rfl, normWsL_idem]

/-- A whitespace-free string is a fixed point of the normalisation. -/
theorem normWsL_of_noWs {l : List Char} (h : noWsL l = true) : normWsL l = l := by
  have hmap : l.map wsToSpace = l := by
    apply map_eq_self_of_forall
    intro a ha
    have : ¬ isWsC a := by
      have := (List.all_eq_true.mp h) a ha
      simpa using this
    exact wsToSpace_eq_self (by simpa using this)
  have hsplit : l.splitOn ' ' = [l] := by
    apply List.splitOnP_eq_single
    intro a ha hsp
    have : ¬ isWsC a := by
      have := (List.all_eq_true.mp h) a ha
      simpa using this
    apply this
    have : a = ' ' := by simpa using hsp
    simp [this, isWsC]
  rw [normWsL, hmap, hsplit]
  cases l with
  | nil => rfl
  | cons c t => simp [joinSep, List.filter]

theorem normWs_of_noWs {s : String} (h : noWs s = true) : normWs s = s := by
  have : normWsL s.data = s.data := normWsL_of_noWs h
  show (⟨normWsL s.data⟩ : String) = s
  rw [this]

end JScore

namespace JScore

/-- The universe of JavaScript values flowing through the agents.  A `Date`
object is identified by the canonical ISO rendering `toISOString` would give
it; plain objects keep their field list. -/
inductive JValue where
  | null
  | undef
  | bool (b : Bool)
  | num (q : ℚ)
  | str (s : String)
  | date (iso : String)
  | arr (xs : List JValue)
  | obj (fields : List (String × JValue))

/-- `typeof x` for the modelled values. -/
def jsTypeof : JValue → String
  | .null => "object"
  | .undef => "undefined"
  | .bool _ => "boolean"
  | .num _ => "number"
  | .str _ => "string"
  | .date _ => "object"
  | .arr _ => "object"
  | .obj _ => "object"

def isNull : JValue → Bool
  | .null => true
  | _ => false

def isNullish : JValue → Bool
  | .null => true
  | .undef => true
  | _ => false

def isArr : JValue → Bool
  | .arr _ => true
  | _ => false

def isStr : JValue → Bool
  | .str _ => true
  | _ => false

def isEmptyArr : JValue → Bool
  | .arr [] => true
  | _ => false

/-- Rendering of a JavaScript number.  Integers print exactly as JS does;
non-integral rationals (which only arise from `parseFloat`) are printed with
Lean's rational notation — no claim depends on their text. -/
def numToString (q : ℚ) : String :=
  if q.den = 1 then toString q.num else toString q

mutual

/-- Model of `String(x)`.  Inside arrays JS renders `null`/`undefined` as the
empty string; a `Date` renders via its ISO identity (JS uses a locale string;
no claim inspects the text). -/
def jsToString : JValue → String
  | .null => "null"
  | .undef => "undefined"
  | .bool b => if b then "true" else "false"
  | .num q => numToString q
  | .str s => s
  | .date iso => iso
  | .arr xs => jsToStringArr xs
  | .obj _ => "[object Object]"

/-- `Array.prototype.toString`: elements joined by commas, nullish elements
rendered empty. -/
def jsToStringArr : List JValue → String
  | [] => ""
  | [x] => jsToStringElem x
  | x :: y :: rest => jsToStringElem x ++ "," ++ jsToStringArr (y :: rest)

def jsToStringElem : JValue → String
  | .null => ""
  | .undef => ""
  | v => jsToString v

end

/-- JavaScript truthiness of an optional string field (absent, `null` and
`''` are falsy). -/
def jsTruthyStr : Option String → Bool
  | none => false
  | some s => s ≠ ""

def lowerChar (c : Char) : Char :=
  if 'A' ≤ c ∧ c ≤ 'Z' then Char.ofNat (c.toNat + 32) else c

/-- Model of `String.prototype.toLowerCase` (ASCII range). -/
def toLowerJS (s : String) : String := ⟨s.data.map lowerChar⟩

/-- Model of `String.prototype.trim`. -/
def jsTrim (s : String) : String :=
  ⟨((s.data.dropWhile isWsC).reverse.dropWhile isWsC).reverse⟩

/-- `s.startsWith(pre)` over the character lists (reduces in the kernel,
unlike `String.startsWith`). -/
def startsWithL (s pre : String) : Bool := pre.data.isPrefixOf s.data

/-- `s.endsWith(suf)` over the character lists. -/
def endsWithL (s suf : String) : Bool := suf.data.isSuffixOf s.data

/-- Substring containment over char lists (used for `includes`). -/
def containsSub (hay needle : List Char) : Bool :=
  (List.range (hay.length + 1)).any (fun i => needle.isPrefixOf (hay.drop i))

/-- First index (if any) at which `needle` occurs in `hay`. -/
def findSubIdx (hay needle : List Char) : Option Nat :=
  (List.range (hay.length + 1)).find? (fun i => needle.isPrefixOf (hay.drop i))

def digVal (c : Char) : Nat := c.toNat - '0'.toNat

def natOfDigits (l : List Char) : Nat :=
  l.foldl (fun acc c => acc * 10 + digVal c) 0

/-- Model of the platform `parseFloat` (exponent notation is not modelled;
no agent feeds it exponents).  Leading whitespace is skipped, an optional
sign, then digits with at most one decimal point; trailing garbage is
ignored; with no leading digits the result is NaN (`none`). -/
def jsParseFloat (s : String) : Option ℚ :=
  let l := s.data.dropWhile isWsC
  let sign : ℚ × List Char :=
    match l with
    | '-' :: t => (-1, t)
    | '+' :: t => (1, t)
    | t => (1, t)
  let ip := sign.2.takeWhile Char.isDigit
  let rest := sign.2.dropWhile Char.isDigit
  let fp : List Char :=
    match rest with
    | '.' :: t => t.takeWhile Char.isDigit
    | _ => []
  if ip = [] ∧ fp = [] then none
  else some (sign.1 * ((natOfDigits ip : ℚ) + (natOfDigits fp : ℚ) / ((10 : ℚ) ^ fp.length)))

/-- The characters stripped by the validators' `replace(/[$,€£¥,\s]/g, '')`
before number parsing. -/
def stripCurrency (s : String) : String :=
  ⟨s.data.filter (fun c => ¬ (c = '$' ∨ c = ',' ∨ c = '€' ∨ c = '£' ∨ c = '¥' ∨ isWsC c))⟩

/-- Modelled from the spec (platform `new URL(s)` validity): "URLs validate
as absolute `http(s)`".  A string is a valid http URL when it carries an
`http://` or `https://` scheme with something after it and contains no raw
whitespace. -/
def isValidHttpUrl (s : String) : Bool :=
  ((startsWithL s "http://" ∧ s.length > 7) ∨ (startsWithL s "https://" ∧ s.length > 8))
    ∧ noWs s

/-- Tabs and line breaks are removed from URL input by the platform parser. -/
def stripUrlWs (l : List Char) : List Char :=
  l.filter (fun c => ¬ (c = '\t' ∨ c = '\n' ∨ c = '\r'))

/-- Spaces are percent-encoded by the platform parser. -/
def encSpace (l : List Char) : List Char :=
  l.flatMap (fun c => if c = ' ' then ['%', '2', '0'] else [c])

/-- Scheme prefix (`https:` or `http:`) of a valid http base URL. -/
def schemePrefixOf (base : String) : List Char :=
  if startsWithL base "https://" then "https:".data else "http:".data

/-- `scheme://host` part of a valid http base URL. -/
def originOf (base : String) : List Char :=
  let n := if startsWithL base "https://" then 8 else 7
  base.data.take n ++ (base.data.drop n).takeWhile (· ≠ '/')

/-- Directory part of the base URL's path, always ending in `/`. -/
def baseDirOf (base : String) : List Char :=
  let n := if startsWithL base "https://" then 8 else 7
  let path := (base.data.drop n).dropWhile (· ≠ '/')
  let upto := (path.reverse.dropWhile (· ≠ '/')).reverse
  if upto = [] then ['/'] else upto

/-- Does the (whitespace-stripped) string begin with a URL scheme
(`alpha (alnum|+|-|.)* :`)? -/
def hasScheme (l : List Char) : Bool :=
  match l with
  | c :: _ =>
    c.isAlpha &&
      (match l.dropWhile (fun d => d.isAlphanum || d == '+' || d == '-' || d == '.') with
       | ':' :: _ => true
       | _ => false)
  | [] => false

/-- Modelled from the spec (platform `new URL(rel, base)`): "if not [absolute],
attempt to resolve against the plan's `targetUrl`".  Root-relative,
scheme-relative, scheme-carrying and path-relative references are resolved
against a valid http(s) base; any other base makes resolution fail (the code
catches this as a URL error). -/
def jsUrlResolve (rel base : String) : Option String :=
  if ¬ isValidHttpUrl base then none
  else
    let r := stripUrlWs rel.data
    if r.take 2 = ['/', '/'] then some ⟨schemePrefixOf base ++ encSpace r⟩
    else if r.take 1 = ['/'] then some ⟨originOf base ++ encSpace r⟩
    else if hasScheme r then some ⟨encSpace r⟩
    else some ⟨originOf base ++ baseDirOf base ++ encSpace r⟩

/-- A single-character grammar check: each char must satisfy its predicate. -/
def chkShape : List Char → List (Char → Bool) → Bool
  | [], [] => true
  | c :: cs, p :: ps => p c && chkShape cs ps
  | _, _ => false

def dig : Char → Bool := Char.isDigit

def lit (c : Char) : Char → Bool := fun d => d == c

/-- Shape of `YYYY-MM-DD`. -/
def dateShape : List (Char → Bool) :=
  [dig, dig, dig, dig, lit '-', dig, dig, lit '-', dig, dig]

/-- Shape of `THH:MM:SS.mmmZ`. -/
def timeShape : List (Char → Bool) :=
  [lit 'T', dig, dig, lit ':', dig, dig, lit ':', dig, dig, lit '.', dig, dig, dig, lit 'Z']

/-- Canonical ISO-8601 timestamp shape (`toISOString` output). -/
def isCanonISO (s : String) : Bool := chkShape s.data (dateShape ++ timeShape)

/-- Date-only ISO shape `YYYY-MM-DD`. -/
def isDateOnly (s : String) : Bool := chkShape s.data dateShape

/-- Modelled from the spec (platform `new Date(s)` + `toISOString`): "dates
parse via standard date parsing and normalize to ISO-8601 on success".
Canonical ISO strings normalise to themselves, date-only strings gain the
UTC-midnight time part; digit-shape only is checked — calendar-range
validation and the many other textual formats the platform accepts are not
modelled. -/
def jsDateToISO (s : String) : Option String :=
  if isCanonISO s then some s
  else if isDateOnly s then some (s ++ "T00:00:00.000Z")
  else none

theorem digit_not_ws {c : Char} (h : c.isDigit = true) : isWsC c = false := by
  by_contra hw
  have hws : isWsC c = true := by
    cases hx : isWsC c
    · exact absurd hx hw
    · rfl
  simp only [isWsC, decide_eq_true_eq] at hws
  rcases hws with h1 | h1 | h1 | h1 | h1 | h1 <;> (subst h1; exact absurd h (by decide))

theorem chkShape_append {l1 l2 : List Char} {ps1 ps2 : List (Char → Bool)}
    (h1 : chkShape l1 ps1 = true) (h2 : chkShape l2 ps2 = true) :
    chkShape (l1 ++ l2) (ps1 ++ ps2) = true := by
  induction l1 generalizing ps1 with
  | nil =>
    cases ps1 with
    | nil => simpa using h2
    | cons p ps => simp [chkShape] at h1
  | cons c cs ih =>
    cases ps1 with
    | nil => simp [chkShape] at h1
    | cons p ps =>
      simp only [chkShape, Bool.and_eq_true] at h1
      simp only [List.cons_append, chkShape, Bool.and_eq_true]
      exact ⟨h1.1, ih h1.2⟩

theorem chkShape_noWs {l : List Char} {ps : List (Char → Bool)}
    (hps : ∀ p ∈ ps, ∀ c, p c = true → isWsC c = false)
    (h : chkShape l ps = true) : noWsL l = true := by
  induction l generalizing ps with
  | nil => simp [noWsL]
  | cons c cs ih =>
    cases ps with
    | nil => simp [chkShape] at h
    | cons p ps' =>
      simp only [chkShape, Bool.and_eq_true] at h
      simp only [noWsL, List.all_cons, Bool.and_eq_true]
      constructor
      · have := hps p (List.mem_cons_self _ _) c h.1
        simp [this]
      · have := ih (fun q hq => hps q (List.mem_cons_of_mem _ hq)) h.2
        simpa [noWsL] using this

theorem lit_not_ws {c0 : Char} (hc0 : isWsC c0 = false) :
    ∀ c, lit c0 c = true → isWsC c = false := by
  intro c hc
  simp only [lit, beq_iff_eq] at hc
  subst hc
  exact hc0

theorem dateTimeShape_not_ws :
    ∀ p ∈ dateShape ++ timeShape, ∀ c, p c = true → isWsC c = false := by
  intro p hp
  fin_cases hp <;>
    first
      | exact fun c hc => digit_not_ws hc
      | exact lit_not_ws (by decide)

theorem isCanonISO_noWs {s : String} (h : isCanonISO s = true) : noWs s = true :=
  chkShape_noWs dateTimeShape_not_ws h

theorem isDateOnly_append_time {s : String} (h : isDateOnly s = true) :
    isCanonISO (s ++ "T00:00:00.000Z") = true := by
  unfold isCanonISO
  rw [String.data_append]
  exact chkShape_append h (by decide)

/-- Every successful output of the date model is itself canonical… -/
theorem jsDateToISO_canon {s o : String} (h : jsDateToISO s = some o) :
    isCanonISO o = true := by
  unfold jsDateToISO at h
  by_cases h1 : isCanonISO s
  · simp [h1] at h; subst h; exact h1
  · by_cases h2 : isDateOnly s
    · simp [h1, h2] at h; subst h; exact isDateOnly_append_time h2
    · simp [h1, h2] at h

/-- …and canonical strings normalise to themselves. -/
theorem jsDateToISO_of_canon {o : String} (h : isCanonISO o = true) :
    jsDateToISO o = some o := by
  unfold jsDateToISO
  simp [h]

end JScore

/-!
## `ValidatorAgent.validateData` — agents/validator-agent.js (part_005)

The imperative loop is embedded as a fold over `plan.dataPoints`; this is
faithful because the loop body reads only the original `rawData` and the
current data point, never the partially built `validatedData`.
-/

namespace ValidatorJS

open JScore

structure DataPoint where
  id : String
  type : String := "string"
  isList : Bool := false
  extractionNotes : Option String := none

structure VPlan where
  dataPoints : Option (List DataPoint) := none
  targetUrl : Option String := none

structure Issue where
  dpId : String
  issue : String
  value : Option JValue := none
  originalCount : Option Nat := none

structure VOut where
  validatedData : List (String × JValue)
  validationIssues : List Issue

/-- `rawData.hasOwnProperty(k) ? rawData[k] : …` — first binding of `k`. -/
def lookupRaw (rd : List (String × JValue)) (k : String) : Option JValue :=
  (rd.find? (fun p => p.1 == k)).map (·.2)

/-- JS object assignment `o[k] = v`: overwrite an existing binding in place,
else append. -/
def setKey : List (String × JValue) → String → JValue → List (String × JValue)
  | [], k, v => [(k, v)]
  | (k', v') :: rest, k, v =>
    if k' == k then (k', v) :: rest else (k', v') :: setKey rest k v

/-- Is a note marked optional (`extractionNotes.toLowerCase().includes('optional')`)? -/
def notesOptional (notes : Option String) : Bool :=
  containsSub (toLowerJS (notes.getD "")).data "optional".data

/-- The inner `cleanAndValidateItem` closure of validator-agent.js,
lines 52–125: returns the cleaned value and the issues it pushed. -/
def cleanAndValidateItem (dpId expectedType : String) (targetUrl : Option String)
    (item : JValue) : JValue × List Issue :=
  if isNullish item then (.null, [])
  else
    let c1 : JValue :=
      match item with
      | .str s => .str (normWs s)
      | v => v
    if expectedType = "number" then
      match c1 with
      | .str s =>
        match jsParseFloat (stripCurrency s) with
        | some q => (.num q, [])
        | none => (.str s, [⟨dpId,
            "Type mismatch: Expected number, failed to parse from string \"" ++
              jsToString item ++ "\".", some item, none⟩])
      | .num q => (.num q, [])
      | v => (v, [⟨dpId, "Type mismatch: Expected number, got " ++ jsTypeof v ++ ".",
          some item, none⟩])
    else if expectedType = "boolean" then
      match c1 with
      | .bool b => (.bool b, [])
      | v =>
        let lower := toLowerJS (jsToString v)
        if lower = "true" ∨ lower = "yes" ∨ lower = "1" ∨ lower = "on" then
          (.bool true, [])
        else if lower = "false" ∨ lower = "no" ∨ lower = "0" ∨ lower = "off" then
          (.bool false, [])
        else (v, [⟨dpId, "Type mismatch: Expected boolean, got " ++ jsTypeof v ++ ".",
            some item, none⟩])
    else if expectedType = "url" ∨ expectedType = "image_url" then
      match c1 with
      | .str s =>
        if isValidHttpUrl s then (.str s, [])
        else if jsTruthyStr targetUrl then
          match jsUrlResolve s (targetUrl.getD "") with
          | some abs =>
            if isValidHttpUrl abs then (.str abs, [])
            else (.str s, [⟨dpId, "Invalid URL: Expected valid URL, got \"" ++
                jsToString item ++ "\".", some item, none⟩])
          | none => (.str s, [⟨dpId, "Invalid URL: Failed to parse or resolve \"" ++
              jsToString item ++ "\".", some item, none⟩])
        else (.str s, [⟨dpId, "Type mismatch: Expected valid URL string, got string.",
            some item, none⟩])
      | v => (v, [⟨dpId, "Type mismatch: Expected valid URL string, got " ++
          jsTypeof v ++ ".", some item, none⟩])
    else if expectedType = "date" then
      match c1 with
      | .date iso => (.date iso, [])
      | .str s =>
        match jsDateToISO s with
        | some iso => (.str iso, [])
        | none => (.str s, [⟨dpId, "Type mismatch: Expected date, failed to parse from \"" ++
            jsToString item ++ "\".", some item, none⟩])
      | v => (v, [⟨dpId, "Type mismatch: Expected date, failed to parse from \"" ++
          jsToString v ++ "\".", some item, none⟩])
    else
      match c1 with
      | .str s => (.str s, [])
      | v => (.str (jsToString v), [⟨dpId, "Type mismatch: Expected string, got " ++
          jsTypeof v ++ ". Converting.", some item, none⟩])

/-- `rawData[dpId]?.length` of the raw binding (arrays and strings have a
length; other values give `undefined`). -/
def rawLengthOf (rd : List (String × JValue)) (k : String) : Option Nat :=
  match lookupRaw rd k with
  | some (.arr l) => some l.length
  | some (.str s) => some s.length
  | _ => none

/-- `x?.length > 0` for an optional length (`undefined > 0` is `false`). -/
def optGtZero : Option Nat → Bool
  | some n => n > 0
  | none => false

/-- One iteration of the `for (const dp of plan.dataPoints)` loop: the value
stored into `validatedData[dp.id]` and the issues pushed, in push order. -/
def processDp (rd : List (String × JValue)) (targetUrl : Option String)
    (dp : DataPoint) : JValue × List Issue :=
  let data0 : JValue :=
    match lookupRaw rd dp.id with
    | some v => v
    | none => if dp.isList then .arr [] else .null
  let shaped : JValue × List Issue :=
    if dp.isList ∧ ¬ isArr data0 then
      (if isNullish data0 then .arr [] else .arr [data0],
       [⟨dp.id, "Type mismatch: Expected list, got single item.", some data0, none⟩])
    else if ¬ dp.isList ∧ isArr data0 then
      (match data0 with
       | .arr (x :: _) => x
       | _ => .null,
       [⟨dp.id, "Type mismatch: Expected single item, got list.", some data0, none⟩])
    else (data0, [])
  if dp.isList ∧ isArr shaped.1 then
    match shaped.1 with
    | .arr items =>
      let cleaned := items.map (cleanAndValidateItem dp.id dp.type targetUrl)
      let outList := (cleaned.map Prod.fst).filter (fun v => ¬ isNull v)
      let itemIssues := cleaned.flatMap Prod.snd
      let rawLen := rawLengthOf rd dp.id
      let tailIssues : List Issue :=
        if optGtZero rawLen ∧ outList.length = 0 then
          [⟨dp.id, "List empty after validation/cleaning.", none, rawLen⟩]
        else if outList.length = 0 ∧ jsTruthyStr dp.extractionNotes ∧
            ¬ notesOptional dp.extractionNotes then
          [⟨dp.id, "Required list is empty.", some (.arr []), none⟩]
        else []
      (.arr outList, shaped.2 ++ itemIssues ++ tailIssues)
    | _ => (shaped.1, shaped.2)
  else if ¬ dp.isList then
    let c := cleanAndValidateItem dp.id dp.type targetUrl shaped.1
    let reqIssues : List Issue :=
      if isNull c.1 ∧ jsTruthyStr dp.extractionNotes ∧
          ¬ notesOptional dp.extractionNotes then
        [⟨dp.id, "Required item is missing or null.", some .null, none⟩]
      else []
    (c.1, shaped.2 ++ c.2 ++ reqIssues)
  else (shaped.1, shaped.2)

/-- `ValidatorAgent.validateData(rawData, plan)` of validator-agent.js.
The guard throw (modelled by `Except.error`) fires exactly when `rawData` or
`plan` is missing or `plan.dataPoints` is not an array. -/
def validateData (rawData : Option (List (String × JValue))) (plan : Option VPlan) :
    Except String VOut :=
  match rawData, plan with
  | some rd, some p =>
    match p.dataPoints with
    | some dps =>
      .ok { validatedData :=
              dps.foldl (fun acc dp => setKey acc dp.id (processDp rd p.targetUrl dp).1) []
          , validationIssues := dps.flatMap (fun dp => (processDp rd p.targetUrl dp).2) }
    | none => .error "ValidatorAgent.validateData: Invalid rawData or plan provided."
  | _, _ => .error "ValidatorAgent.validateData: Invalid rawData or plan provided."

end ValidatorJS

/-!
## `ValidatorAgent.validateData` — scout-mind-extension/src/agents/validatorAgent.ts

Differences from the JS version embedded above: the malformed-input guard
returns an error result instead of throwing, the expected type is lowercased
and knows more aliases, `Date` objects are converted to ISO strings, the
emptied-list issue is skipped when every raw entry was already nullish, a
required-field check always runs, and the result carries `success`.
The only modelled `throw` is the `rawData[dpId]?.every(...)` call, which is a
`TypeError` when the raw binding is a non-array non-nullish value.
-/

namespace ValidatorTS

open JScore ValidatorJS

structure VOut where
  validatedData : List (String × JValue)
  validationIssues : List Issue
  success : Bool
  error : Option String := none

/-- The `cleanAndValidateItem` closure of validatorAgent.ts, lines 105–174.
`expectedType` is the already-lowercased `dp.type`. -/
def cleanAndValidateItem (dpId expectedType : String) (targetUrl : Option String)
    (item : JValue) : JValue × List Issue :=
  if isNullish item then (.null, [])
  else
    let c1 : JValue :=
      match item with
      | .str s => .str (normWs s)
      | v => v
    if expectedType = "number" ∨ expectedType = "integer" then
      match c1 with
      | .str s =>
        match jsParseFloat (stripCurrency s) with
        | some q => (.num q, [])
        | none => (.str s, [⟨dpId,
            "Type error: Expected number, failed to parse from string \"" ++
              jsToString item ++ "\".", some item, none⟩])
      | .num q => (.num q, [])
      | v => (v, [⟨dpId, "Type error: Expected number, got " ++ jsTypeof v ++ ".",
          some item, none⟩])
    else if expectedType = "boolean" then
      match c1 with
      | .bool b => (.bool b, [])
      | v =>
        let lower := toLowerJS (jsToString v)
        if lower = "true" ∨ lower = "yes" ∨ lower = "1" ∨ lower = "on" then
          (.bool true, [])
        else if lower = "false" ∨ lower = "no" ∨ lower = "0" ∨ lower = "off" then
          (.bool false, [])
        else (v, [⟨dpId, "Type error: Expected boolean, got " ++ jsTypeof v ++ ".",
            some item, none⟩])
    else if expectedType = "url" ∨ expectedType = "image_url" ∨ expectedType = "image" ∨
        expectedType = "link" then
      match c1 with
      | .str s =>
        if isValidHttpUrl s then (.str s, [])
        else if jsTruthyStr targetUrl then
          match jsUrlResolve s (targetUrl.getD "") with
          | some abs =>
            if isValidHttpUrl abs then (.str abs, [])
            else (.str s, [⟨dpId, "Invalid URL: Expected valid URL, got \"" ++
                jsToString item ++ "\".", some item, none⟩])
          | none => (.str s, [⟨dpId, "Invalid URL: Failed to parse or resolve \"" ++
              jsToString item ++ "\". Error: Invalid URL", some item, none⟩])
        else if ¬ startsWithL s "http" then
          (.str s, [⟨dpId, "Invalid URL: Expected absolute URL, got relative path \"" ++
              jsToString item ++ "\" without a base URL.", some item, none⟩])
        else (.str s, [⟨dpId, "Invalid URL: Expected valid URL, got \"" ++
            jsToString item ++ "\".", some item, none⟩])
      | v => (v, [⟨dpId, "Type error: Expected URL string, got " ++ jsTypeof v ++ ".",
          some item, none⟩])
    else if expectedType = "date" ∨ expectedType = "datetime" then
      match c1 with
      | .str s =>
        match jsDateToISO s with
        | some iso => (.str iso, [])
        | none => (.str s, [⟨dpId,
            "Type error: Expected date or parsable date string, got \"" ++
              jsToString item ++ "\".", some item, none⟩])
      | .date iso => (.str iso, [])
      | v => (v, [⟨dpId, "Type error: Expected date or parsable date string, got \"" ++
          jsToString item ++ "\".", some item, none⟩])
    else
      match c1 with
      | .str s => (.str s, [])
      | v => (.str (jsToString v), [⟨dpId, "Type error: Expected string, got " ++
          jsTypeof v ++ ". Converting.", some item, none⟩])

/-- One iteration of the TS validation loop (validatorAgent.ts lines 87–194).
The `Except` error models the `TypeError` thrown by
`rawData[dpId]?.every(...)` when the raw binding is a non-array value. -/
def processDp (rd : List (String × JValue)) (targetUrl : Option String)
    (dp : DataPoint) : Except String (JValue × List Issue) :=
  let data0 : JValue :=
    match lookupRaw rd dp.id with
    | some v => v
    | none => if dp.isList then .arr [] else .null
  let expectedType := toLowerJS dp.type
  let shaped : JValue × List Issue :=
    if dp.isList ∧ ¬ isArr data0 then
      (if isNullish data0 then .arr [] else .arr [data0],
       [⟨dp.id, "Type mismatch: Expected list, got single item.", some data0, none⟩])
    else if ¬ dp.isList ∧ isArr data0 then
      (match data0 with
       | .arr (x :: _) => x
       | _ => .null,
       [⟨dp.id, "Type mismatch: Expected single item, got list.", some data0, none⟩])
    else (data0, [])
  let isOptional := notesOptional dp.extractionNotes
  let afterClean : Except String (JValue × List Issue) :=
    if dp.isList ∧ isArr shaped.1 then
      match shaped.1 with
      | .arr items =>
        let originalLength := items.length
        let cleaned := items.map (cleanAndValidateItem dp.id expectedType targetUrl)
        let outList := (cleaned.map Prod.fst).filter (fun v => ¬ isNullish v)
        let itemIssues := cleaned.flatMap Prod.snd
        let emptied : Except String (List Issue) :=
          if originalLength > 0 ∧ outList.length = 0 then
            match lookupRaw rd dp.id with
            | some (.arr l) =>
              .ok (if ¬ l.all isNullish then
                    [⟨dp.id, "List empty after validation/cleaning.", none,
                      some originalLength⟩]
                  else [])
            | none => .ok [⟨dp.id, "List empty after validation/cleaning.", none,
                some originalLength⟩]
            | some .null => .ok [⟨dp.id, "List empty after validation/cleaning.", none,
                some originalLength⟩]
            | some .undef => .ok [⟨dp.id, "List empty after validation/cleaning.", none,
                some originalLength⟩]
            | some _ => .error "TypeError: rawData[dpId]?.every is not a function"
          else .ok []
        match emptied with
        | .ok tailIssues => .ok (.arr outList, shaped.2 ++ itemIssues ++ tailIssues)
        | .error e => .error e
      | _ => .ok (shaped.1, shaped.2)
    else if ¬ dp.isList then
      let c := cleanAndValidateItem dp.id expectedType targetUrl shaped.1
      .ok (c.1, shaped.2 ++ c.2)
    else .ok (shaped.1, shaped.2)
  match afterClean with
  | .ok (out, iss) =>
    let required : List Issue :=
      if ¬ isOptional ∧ (isNull out ∨ (dp.isList ∧ isArr out ∧ isEmptyArr out)) then
        [⟨dp.id, "Required item is missing, null, or empty after validation.", some out, none⟩]
      else []
    .ok (out, iss ++ required)
  | .error e => .error e

/-- `ValidatorAgent.validateData` of validatorAgent.ts.  The malformed-input
guard returns an error `ValidationResult` rather than throwing. -/
def validateData (rawData : Option (List (String × JValue))) (plan : Option VPlan) :
    Except String VOut :=
  match rawData, plan with
  | some rd, some p =>
    match p.dataPoints with
    | some dps => do
      let results ← dps.mapM (processDp rd p.targetUrl)
      let validated := (dps.zip results).foldl
        (fun acc pr => setKey acc pr.1.id pr.2.1) []
      let issues := results.flatMap Prod.snd
      pure { validatedData := validated, validationIssues := issues,
             success := issues.length == 0 }
    | none =>
      .ok { validatedData := [], validationIssues := [], success := false,
            error := some "Invalid rawData or plan structure provided." }
  | _, _ =>
    .ok { validatedData := [], validationIssues := [], success := false,
          error := some "Invalid rawData or plan structure provided." }

end ValidatorTS

/-!
## `LLMBridge.query` — scout-mind-extension/src/llm/llmBridge.ts (part_002)

Providers are functions from prompt and options to either a response object
(`Except.ok`) or a thrown error (`Except.error`).  The embedding additionally
returns the list of `(routed provider id, prompt)` pairs for every
`provider.query` invocation, so that retry counts are observable.
-/

namespace Bridge

structure Resp where
  text : String := ""
  error : Option String := none
  model : Option String := none
  provider : Option String := none

structure Opts where
  provider : Option String := none
  fallbackProvider : Option String := none
  /-- The remaining option fields (model, temperature, …), carried through
  unchanged by the spread `{ ...options, … }`. -/
  extra : List (String × String) := []

open JScore (jsTruthyStr)

abbrev ProviderFun := String → Opts → Except String Resp

structure LLMBridge where
  providers : List (String × ProviderFun)
  defaultProviderId : Option String := none
  configLlmProvider : Option String := none

def lookupProvider (ps : List (String × ProviderFun)) (id : String) : Option ProviderFun :=
  (ps.find? (fun p => p.1 == id)).map (·.2)

def hasProvider (ps : List (String × ProviderFun)) (id : String) : Bool :=
  (lookupProvider ps id).isSome

def isExternalAlias (t : String) : Bool :=
  t = "openai" ∨ t = "mistral" ∨ t = "anthropic"

/-- Lines 145–152 of llmBridge.ts: pick `options.provider || defaultProviderId`
and reroute external aliases to the registered `'external'` connector. -/
def resolveTarget (b : LLMBridge) (options : Opts) : Option String :=
  let t0 := if jsTruthyStr options.provider then options.provider else b.defaultProviderId
  match t0 with
  | some t =>
    if t ≠ "" ∧ isExternalAlias t ∧ hasProvider b.providers "external" then some "external"
    else some t
  | none => none

/-- The `if (!options.provider) options.provider = this.config.llmProvider`
mutation performed inside the rerouting branch. -/
def optsAfterRouting (b : LLMBridge) (options : Opts) : Opts :=
  let t0 := if jsTruthyStr options.provider then options.provider else b.defaultProviderId
  match t0 with
  | some t =>
    if t ≠ "" ∧ isExternalAlias t ∧ hasProvider b.providers "external" ∧
        ¬ jsTruthyStr options.provider then
      { options with provider := b.configLlmProvider }
    else options
  | none => options

def availableList (b : LLMBridge) : String :=
  String.intercalate ", " (b.providers.map (·.1))

theorem optsAfterRouting_fallback (b : LLMBridge) (options : Opts) :
    (optsAfterRouting b options).fallbackProvider = options.fallbackProvider := by
  unfold optsAfterRouting
  rcases (if jsTruthyStr options.provider then options.provider else b.defaultProviderId) with
    _ | t
  · rfl
  · dsimp only
    split
    · rfl
    · rfl

/-- `LLMBridge.query(prompt, options)` of llmBridge.ts, lines 143–197,
paired with the log of provider invocations.  The recursive fallback call
clears `fallbackProvider`, which bounds the recursion. -/
def query (b : LLMBridge) (prompt : String) (options : Opts) :
    Resp × List (String × String) :=
  match resolveTarget b options with
  | none => ({ text := "", error := some "No LLM provider available for query." }, [])
  | some t =>
    if t = "" then
      ({ text := "", error := some "No LLM provider available for query." }, [])
    else
      match lookupProvider b.providers t with
      | none =>
        ({ text := "", error := some ("LLM provider '" ++ t ++ "' not found. Available: " ++
            availableList b) }, [])
      | some p =>
        match p prompt (optsAfterRouting b options) with
        | .ok r => ({ r with provider := some t }, [(t, prompt)])
        | .error emsg =>
          let errorMsg := "Error querying provider " ++ t ++ ": " ++
            (if emsg = "" then "Unknown error" else emsg)
          match hfb : (optsAfterRouting b options).fallbackProvider with
          | some fb =>
            if fb ≠ "" ∧ fb ≠ t then
              let inner := query b prompt
                { optsAfterRouting b options with provider := some fb, fallbackProvider := none }
              (inner.1, (t, prompt) :: inner.2)
            else ({ text := "", error := some errorMsg, provider := some t }, [(t, prompt)])
          | none => ({ text := "", error := some errorMsg, provider := some t }, [(t, prompt)])
  termination_by (if options.fallbackProvider.isSome then 1 else 0)
  decreasing_by
    simp only [optsAfterRouting_fallback] at hfb
    simp [hfb]

end Bridge

/-!
## `PlannerAgent` — agents/planner-agent.js (part_006)

`parseExtractionPlan` scrapes a fixed section grammar out of free text with
regexes; the regexes are modelled by first-occurrence case-insensitive
substring search plus character scans.  String operations cannot throw, so
the parser's catch block is unreachable and the embedded parser is total.
`JSON.parse` of a fenced schema block is modelled as accepting the matched
text verbatim (no claim depends on the schema's contents), and the
`metadata.timestamp` clock read is not modelled.
-/

namespace Planner

open JScore

structure Field where
  name : String
  type : String
deriving Repr

structure SchemaFieldConfig where
  selector : Option String := none
  /-- The `attribute` key (renamed: `attribute` is a Lean keyword). -/
  attr : Option String := none
  transform : Option String := none

inductive SchemaVal where
  | raw (text : String)
  | generated (m : List (String × SchemaFieldConfig))

structure Meta where
  targetUrl : String
  extractionGoal : String
  model : Option String := none

structure Plan where
  success : Bool := true
  error : Option String := none
  extractionGoal : Option String := none
  dataStructure : Option String := none
  keyFields : List Field := []
  targetElements : List String := []
  extractionStrategy : Option String := none
  potentialChallenges : List String := []
  schema : Option SchemaVal := none
  metadata : Option Meta := none

/-- Case-insensitive first occurrence of `needle` in `hay`. -/
def findSubIdxCI (hay needle : List Char) : Option Nat :=
  findSubIdx (hay.map lowerChar) (needle.map lowerChar)

/-- Model of `text.match(/Header:?\s*([\s\S]*?)(?=Term1|…|$)/i)`: everything
after the first occurrence of the header (plus optional colon and
whitespace), up to the earliest terminator occurrence or the end. -/
def sectionBetween (text header : String) (terminators : List String) : Option String :=
  match findSubIdxCI text.data header.data with
  | none => none
  | some i =>
    let afterH := text.data.drop (i + header.length)
    let afterC := match afterH with
      | ':' :: t => t
      | t => t
    let body := afterC.dropWhile isWsC
    let stop := (terminators.filterMap
        (fun t => findSubIdxCI body t.data)).foldl min body.length
    some ⟨body.take stop⟩

/-- Model of `text.match(/Header:?\s*([^\n]+)/i)`: the rest of the line after
the first header occurrence (whitespace skipped); an empty rest counts as no
match. -/
def lineAfter (text header : String) : Option String :=
  match findSubIdxCI text.data header.data with
  | none => none
  | some i =>
    let afterH := text.data.drop (i + header.length)
    let afterC := match afterH with
      | ':' :: t => t
      | t => t
    let body := (afterC.dropWhile isWsC).takeWhile (· ≠ '\n')
    if body = [] then none else some ⟨body⟩

/-- `line.trim().replace(/^-\s*/, '')`. -/
def stripDash (s : String) : List Char :=
  match (jsTrim s).data with
  | '-' :: t => t.dropWhile isWsC
  | t => t

/-- A character allowed in the field-name run (`[^:[\]]+`). -/
def notSepC (c : Char) : Bool := ¬ (c = ':' ∨ c = '[' ∨ c = ']')

/-- One `Key Fields` bullet line: `name [type]` with the type optional,
mirroring `field.match(/([^:[\]]+)(?:\s*\[([^\]]+)\])?/)`. -/
def fieldOfLine (line : String) : Field :=
  let f := stripDash line
  match f.findIdx? notSepC with
  | none => { name := ⟨f⟩, type := "string" }
  | some i =>
    let run := (f.drop i).takeWhile notSepC
    let afterWs := (f.drop (i + run.length)).dropWhile isWsC
    match afterWs with
    | '[' :: t =>
      let cap := t.takeWhile (· ≠ ']')
      if cap ≠ [] ∧ t.drop cap.length ≠ [] then
        { name := jsTrim ⟨run⟩, type := toLowerJS (jsTrim ⟨cap⟩) }
      else { name := jsTrim ⟨run⟩, type := "string" }
    | _ => { name := jsTrim ⟨run⟩, type := "string" }

def splitLines (s : String) : List String :=
  (s.data.splitOn '\n').map (fun l => (⟨l⟩ : String))

def keyFieldsTerminators : List String :=
  ["Target Elements:", "Extraction Strategy:", "Potential Challenges:"]

/-- The `Key Fields` section parse (lines 133–151): per line a best-effort
name/type, empty names filtered out. -/
def parseKeyFields (text : String) : List Field :=
  match sectionBetween text "Key Fields" keyFieldsTerminators with
  | none => []
  | some sec =>
    ((splitLines (jsTrim sec)).map fieldOfLine).filter (fun f => f.name ≠ "")

def parseBulletList (sec : String) : List String :=
  ((splitLines (jsTrim sec)).map (fun l => (⟨stripDash l⟩ : String))).filter (· ≠ "")

/-- Does the fenced block body look like `{\s*"` with a non-empty string key
(the `{\s*"[^}]+"` prefix of the schema regex)? -/
def schemaShape (cap : List Char) : Bool :=
  match cap with
  | '{' :: t =>
    (match t.dropWhile isWsC with
     | '"' :: u => (u.takeWhile (fun c => ¬ (c = '}'))) ≠ []
     | _ => false)
  | _ => false

/-- First index `j` in `body` where `}` is followed (after whitespace) by a
closing fence. -/
def findCloseFence (body : List Char) : Option Nat :=
  (List.range body.length).find? (fun j =>
    match body.drop j with
    | '}' :: rest => "```".data.isPrefixOf (rest.dropWhile isWsC)
    | _ => false)

/-- Model of the fenced-schema regex
`/```(?:json)?\s*({\s*"[^}]+"[\s\S]*?})\s*```/` returning the matched JSON
text; `JSON.parse` is modelled as accepting it. -/
def findFencedSchema (text : String) : Option String :=
  match findSubIdx text.data "```".data with
  | none => none
  | some i =>
    let after := text.data.drop (i + 3)
    let after1 := if "json".data.isPrefixOf after then after.drop 4 else after
    let body := after1.dropWhile isWsC
    match findCloseFence body with
    | some j =>
      let cap := body.take (j + 1)
      if schemaShape cap then some ⟨cap⟩ else none
    | none => none

/-- `PlannerAgent.parseExtractionPlan(responseText)` of planner-agent.js,
lines 107–191.  The function's catch block cannot fire (no operation in the
body throws), so `success` is always `true`. -/
def parseExtractionPlan (responseText : String) : Plan :=
  { success := true
  , extractionGoal := (lineAfter responseText "Extraction Goal").map jsTrim
  , dataStructure := (lineAfter responseText "Data Structure").map jsTrim
  , keyFields := parseKeyFields responseText
  , targetElements :=
      match sectionBetween responseText "Target Elements"
          ["Extraction Strategy:", "Potential Challenges:"] with
      | none => []
      | some sec => parseBulletList sec
  , extractionStrategy :=
      (sectionBetween responseText "Extraction Strategy" ["Potential Challenges:"]).map jsTrim
  , potentialChallenges :=
      match sectionBetween responseText "Potential Challenges" [] with
      | none => []
      | some sec => parseBulletList sec
  , schema := (findFencedSchema responseText).map .raw }

/-- The fixed type→config mapping (`generateSchemaFromFields`, lines 199–233). -/
def generateSchemaFromFields (fields : List Field) : List (String × SchemaFieldConfig) :=
  fields.map (fun field =>
    (field.name,
      if field.type = "number" ∨ field.type = "integer" then
        { transform := some "number" }
      else if field.type = "boolean" then
        { transform := some "boolean" }
      else if field.type = "url" ∨ field.type = "link" then
        { attr := some "href", transform := some "url" }
      else if field.type = "image" then
        { attr := some "src" }
      else
        { transform := some "trim" }))

structure LLMResp where
  text : String := ""
  model : Option String := none

/-- Stand-in for `fillTemplate('PLANNER_CREATE_PLAN', …)` — the prompt text
never influences any claimed output. -/
def plannerPrompt (targetUrl extractionGoal htmlSample : String) : String :=
  targetUrl ++ "\n" ++ extractionGoal ++ "\n" ++ htmlSample

/-- The HTML truncation of createExtractionPlan lines 45–47. -/
def truncateHtml (htmlSample : String) (maxLen : Nat) : String :=
  if htmlSample.length > maxLen then
    htmlSample.take maxLen ++ "\n<!-- HTML truncated for size limits -->"
  else htmlSample

/-- `PlannerAgent.createExtractionPlan` of planner-agent.js, lines 38–99,
parameterised by the LLM collaborator (`Except.error` = the query threw,
`.ok none` = it resolved to a nullish response). -/
def createExtractionPlan (llm : String → Except String (Option LLMResp))
    (targetUrl extractionGoal htmlSample : String)
    (maxHtmlSampleLength : Nat := 30000) : Plan :=
  match llm (plannerPrompt targetUrl extractionGoal
      (truncateHtml htmlSample maxHtmlSampleLength)) with
  | .error e => { success := false, error := some e }
  | .ok none =>
    { success := false, error := some "Failed to get valid response from LLM" }
  | .ok (some resp) =>
    if resp.text = "" then
      { success := false, error := some "Failed to get valid response from LLM" }
    else
      let plan := parseExtractionPlan resp.text
      let meta : Meta :=
        { targetUrl := targetUrl, extractionGoal := extractionGoal, model := resp.model }
      let planMeta := { plan with metadata := some meta }
      if planMeta.schema.isNone then
        { planMeta with schema := some (.generated (generateSchemaFromFields plan.keyFields)) }
      else planMeta

end Planner

/-!
## `ErrorRecoveryAgent` — agents/error-recovery-agent.js

`testSelector` asks the content script for a match count; `attemptRecovery`
runs an ordered strategy list (`fallbackStrategies`), testing every proposed
candidate and keeping only candidates whose live test succeeds.  A strategy
outcome is `Except.error` when the strategy function threw (logged and
skipped by the loop).
-/

namespace Recovery

structure TestResp where
  success : Bool := false
  count : Nat := 0

/-- The content-script collaborator behind `sendMessageToContentScript` for
`{action: 'testSelector'}` messages. -/
abbrev SendFun := String → Except String TestResp

/-- `ErrorRecoveryAgent.testSelector(selector, tabId)` (lines 109–121):
`true` iff the message resolves with `success === true` and `count > 0`;
a rejected message yields `false`. -/
def testSelector (send : SendFun) (selector : String) : Bool :=
  match send selector with
  | .ok r => r.success ∧ r.count > 0
  | .error _ => false

structure RecoveryResult where
  recoverySuccessful : Bool := false
  alternativeSelectors : List String := []

/-- The inner `for (const altSelector of alternatives)` loop (lines 66–79):
test each candidate, keep deduplicated successes. -/
def testAlternatives (send : SendFun) (alts : List String) (acc : RecoveryResult) :
    RecoveryResult :=
  alts.foldl
    (fun acc alt =>
      if testSelector send alt then
        { recoverySuccessful := true
        , alternativeSelectors :=
            if alt ∈ acc.alternativeSelectors then acc.alternativeSelectors
            else acc.alternativeSelectors ++ [alt] }
      else acc)
    acc

/-- The strategy loop of `attemptRecovery` (lines 54–94): each entry is the
outcome of one strategy call (`Except.error` = the strategy threw and is
skipped); the loop stops at the first strategy that validated something. -/
def attemptRecoveryGo (send : SendFun) :
    List (Except String (List String)) → RecoveryResult → RecoveryResult
  | [], acc => acc
  | s :: rest, acc =>
    match s with
    | .error _ => attemptRecoveryGo send rest acc
    | .ok alts =>
      let acc' := if alts.length > 0 then testAlternatives send alts acc else acc
      if acc'.recoverySuccessful then acc' else attemptRecoveryGo send rest acc'

structure BridgeResp where
  text : String := ""
  error : Option String := none

/-- `tryAlternativeSelectorsLLM` (lines 134–197).  The code calls
`response.replace(...)` on the *response object* returned by
`LLMBridge.query`; objects have no `replace`, so the resulting `TypeError`
is caught by the inner `catch (parseError)` and the strategy returns `[]`;
an outright query rejection is caught by the outer catch and also yields
`[]`. -/
def tryAlternativeSelectorsLLM (llm : String → Except String BridgeResp)
    (prompt : String) : Except String (List String) :=
  match llm prompt with
  | .ok _ => .ok []
  | .error _ => .ok []

/-- `ErrorRecoveryAgent.attemptRecovery` (lines 39–101) with its current
single-strategy `fallbackStrategies` list.  The HTML sample is truncated to
10000 characters before prompting. -/
def attemptRecovery (llm : String → Except String BridgeResp) (send : SendFun)
    (dpDescription failedSelector errorMessage htmlSample : String) : RecoveryResult :=
  let truncated :=
    if htmlSample.length > 10000 then htmlSample.take 10000 ++ "..." else htmlSample
  let prompt := dpDescription ++ "\n" ++ failedSelector ++ "\n" ++ errorMessage ++
    "\n" ++ truncated
  attemptRecoveryGo send [tryAlternativeSelectorsLLM llm prompt] {}

end Recovery

/-!
## `SelectorAgent.convertSelector` — both variants

* `Sel.convertSelector` follows scout-mind-extension/src/agents/selectorAgent.ts
  lines 317–357 (short-circuit when the heuristic type equals the target).
* `Sel.convertSelectorJS` follows agents/selector-agent.js (part_006 lines
  843–886): no short-circuit, XPath detected only by a leading `/`, and a
  different reply-cleaning rule.

Both return the number of model calls performed alongside the result.
-/

namespace Sel

open JScore

structure BridgeResp where
  text : String := ""
  error : Option String := none
  model : Option String := none

structure ConvResult where
  success : Bool
  error : Option String := none
  originalSelector : String
  convertedSelector : Option String := none
  originalType : String
  targetType : String

/-- The TS heuristic: `/`, `./` or `(` ⇒ xpath, else css. -/
def heuristicType (s : String) : String :=
  if startsWithL s "/" ∨ startsWithL s "./" ∨ startsWithL s "(" then "xpath" else "css"

/-- Strip one layer of matching backticks or quotes (TS lines 342–346). -/
def stripWrap (s : String) : String :=
  if (startsWithL s "`" ∧ endsWithL s "`") ∨
     (startsWithL s "'" ∧ endsWithL s "'") ∨
     (startsWithL s "\"" ∧ endsWithL s "\"") then
    ⟨(s.data.drop 1).dropLast⟩
  else s

/-- `SelectorAgent.convertSelector(selector, targetType)` of selectorAgent.ts,
paired with the number of LLM calls made. -/
def convertSelector (llm : String → Except String BridgeResp)
    (selector targetType : String) : ConvResult × Nat :=
  let originalType := heuristicType selector
  if originalType = targetType then
    ({ success := true, originalSelector := selector, convertedSelector := some selector,
       originalType := originalType, targetType := targetType }, 0)
  else
    let prompt := "Please convert the following " ++ originalType ++ " selector to " ++
      targetType ++ ":\n`" ++ selector ++ "`"
    match llm prompt with
    | .error e =>
      ({ success := false, error := some e, originalSelector := selector,
         convertedSelector := none, originalType := originalType,
         targetType := targetType }, 1)
    | .ok r =>
      if jsTruthyStr r.error ∨ r.text = "" then
        ({ success := false
         , error := some ((r.error.filter (· ≠ "")).getD
             "Failed to get valid response from LLM for selector conversion")
         , originalSelector := selector, convertedSelector := none
         , originalType := originalType, targetType := targetType }, 1)
      else
        ({ success := true, originalSelector := selector
         , convertedSelector := some (stripWrap (jsTrim r.text))
         , originalType := originalType, targetType := targetType }, 1)

def isQuoteC (c : Char) : Bool := c = '`' ∨ c = '\'' ∨ c = '"'

/-- The JS reply cleaning (part_006 lines 868–870): drop everything up to and
including the first quote character, then everything from the next quote
character on. -/
def cleanJsReply (s : String) : String :=
  let t := (jsTrim s).data
  let t1 := match t.findIdx? isQuoteC with
    | some i => t.drop (i + 1)
    | none => t
  let t2 := match t1.findIdx? isQuoteC with
    | some j => t1.take j
    | none => t1
  ⟨t2⟩

/-- `SelectorAgent.convertSelector` of agents/selector-agent.js (part_006
lines 843–886): always queries the model, classifies XPath only by a leading
`/`. -/
def convertSelectorJS (llm : String → Except String BridgeResp)
    (selector targetType : String) : ConvResult × Nat :=
  let originalType := if JScore.startsWithL selector "/" then "xpath" else "css"
  let prompt := "Please convert the following " ++ originalType ++ " selector to " ++
    targetType ++ ":\n`" ++ selector ++ "`"
  match llm prompt with
  | .error e =>
    ({ success := false, error := some e, originalSelector := selector,
       convertedSelector := none, originalType := originalType,
       targetType := targetType }, 1)
  | .ok r =>
    if r.text = "" then
      ({ success := false
       , error := some "Failed to get valid response from LLM for selector conversion"
       , originalSelector := selector, convertedSelector := none
       , originalType := originalType, targetType := targetType }, 1)
    else
      ({ success := true, originalSelector := selector
       , convertedSelector := some (cleanJsReply r.text)
       , originalType := originalType, targetType := targetType }, 1)

end Sel

/-!
## `AgentOrchestrator.processRequest` — agents/orchestrator.js (part_007)

All collaborators (offscreen fetch, the agents, the content-script
re-extraction) are parameters; `Except.error` models a rejected promise /
thrown error.  The mutable locals (`plan`, `rawData`, `validatedData`,
`validationIssues`, `extractionErrors`, `finalSelectors`) are threaded as
`OVars`; the single top-level catch receives the variables' values at the
point of the throw, exactly as the JS closure does.
-/

namespace Orch

open JScore

structure ODataPoint where
  id : String
  isList : Bool := false
  potentialSelectors : List String := []

structure OPlan where
  /-- `none` models a plan object without a `dataPoints` array. -/
  dataPoints : Option (List ODataPoint) := none

/-- `!plan.dataPoints || plan.dataPoints.length === 0` (line 70). -/
def noDataPoints (p : OPlan) : Bool :=
  match p.dataPoints with
  | none => true
  | some [] => true
  | some (_ :: _) => false

structure ExtErr where
  dpId : String
  selector : String
  error : String

structure ValIssue where
  dpId : String
  issue : String

/-- A literal issue object such as the catch block's
`{ type: 'orchestration', error: error.message }`; `issue` is the field the
spec claims it has, which the code never sets. -/
structure TaggedIssue where
  type : String
  error : Option String := none
  issue : Option String := none

/-- The heterogeneous entries of the final `issues` array. -/
inductive OrchIssue where
  | ext (e : ExtErr)
  | val (v : ValIssue)
  | tagged (t : TaggedIssue)

structure OffResp where
  success : Bool := false
  htmlContent : Option String := none
  error : Option String := none

structure ExtractOut where
  rawData : List (String × JValue)
  extractionErrors : List ExtErr

structure RecResult where
  recoverySuccessful : Bool := false
  alternativeSelectors : List String := []

structure ReResp where
  success : Bool := false
  data : List JValue := []
  error : Option String := none

structure ValOut where
  validatedData : List (String × JValue)
  validationIssues : List ValIssue

/-- The collaborators of one `processRequest` run. -/
structure OrchDeps where
  fetchOffscreen : Except String OffResp
  createPlan : String → Except String (Option OPlan)
  generateSelectors : OPlan → String → Except String OPlan
  extractData : OPlan → Except String ExtractOut
  attemptRecovery : ODataPoint → String → String → Except String RecResult
  reExtract : ODataPoint → String → Except String ReResp
  validate : List (String × JValue) → OPlan → Except String ValOut

/-- `fetchHtmlSample` (lines 196–212): unwraps the offscreen response and
wraps any failure in the `Failed to fetch page content…` message. -/
def fetchHtmlSample (d : OrchDeps) : Except String String :=
  match d.fetchOffscreen with
  | .ok resp =>
    match resp.htmlContent with
    | some html =>
      if resp.success then .ok html
      else .error ("Failed to fetch page content for planning/extraction: " ++
        (resp.error.getD "Offscreen document failed to fetch or return HTML content."))
    | none =>
      .error ("Failed to fetch page content for planning/extraction: " ++
        (resp.error.getD "Offscreen document failed to fetch or return HTML content."))
  | .error e => .error ("Failed to fetch page content for planning/extraction: " ++ e)

/-- The orchestrator's mutable locals, as visible to the top-level catch. -/
structure OVars where
  plan : Option OPlan := none
  rawData : List (String × JValue) := []
  validatedData : List (String × JValue) := []
  validationIssues : List ValIssue := []
  extractionErrors : List ExtErr := []
  finalSelectors : List (String × Option String) := []

structure LoopSt where
  plan : OPlan
  rawData : List (String × JValue)
  extErrs : List ExtErr
  attempts : List (String × Nat)

def lookupNat (l : List (String × Nat)) (k : String) : Option Nat :=
  (l.find? (fun p => p.1 == k)).map (·.2)

def setNat : List (String × Nat) → String → Nat → List (String × Nat)
  | [], k, v => [(k, v)]
  | (k', v') :: rest, k, v =>
    if k' == k then (k', v) :: rest else (k', v') :: setNat rest k v

def setRaw : List (String × JValue) → String → JValue → List (String × JValue)
  | [], k, v => [(k, v)]
  | (k', v') :: rest, k, v =>
    if k' == k then (k', v) :: rest else (k', v') :: setRaw rest k v

/-- Replace a data point's `potentialSelectors` in place (the JS code mutates
the found `failedDp` object inside `plan.dataPoints`). -/
def setSelectors (dps : List ODataPoint) (id : String) (sels : List String) :
    List ODataPoint :=
  dps.map (fun dp => if dp.id = id then { dp with potentialSelectors := sels } else dp)

/-- One iteration of the recovery loop (lines 90–149) for `errorInfo`. -/
def recoverOne (d : OrchDeps) (st : LoopSt) (errorInfo : ExtErr) :
    Except (LoopSt × String) LoopSt :=
  match st.plan.dataPoints with
  | none => .error (st, "TypeError: Cannot read properties of undefined (reading 'find')")
  | some dps =>
    match dps.find? (fun dp => dp.id == errorInfo.dpId) with
    | none => .ok st
    | some failedDp =>
      let attemptCount := (lookupNat st.attempts failedDp.id).getD 0 + 1
      if attemptCount > 2 then .ok st
      else
        let st := { st with attempts := setNat st.attempts failedDp.id attemptCount }
        match d.attemptRecovery failedDp errorInfo.selector errorInfo.error with
        | .error e => .error (st, e)
        | .ok recoveryResult =>
          if recoveryResult.recoverySuccessful ∧
              recoveryResult.alternativeSelectors.length > 0 then
            let dps' := setSelectors dps failedDp.id recoveryResult.alternativeSelectors
            let st := { st with plan := { st.plan with dataPoints := some dps' } }
            let firstSel := recoveryResult.alternativeSelectors.headD ""
            match d.reExtract failedDp firstSel with
            | .ok reResp =>
              if reResp.success then
                let newVal : JValue :=
                  if failedDp.isList then .arr reResp.data
                  else reResp.data.headD .null
                .ok
                  { st with
                    rawData := setRaw st.rawData failedDp.id newVal
                    extErrs := st.extErrs.filter (fun e => e.dpId ≠ failedDp.id) }
              else .ok st
            | .error _ => .ok st
          else .ok st

/-- The recovery loop iterates over the extraction errors captured when the
loop started, while the `extractionErrors` variable itself is filtered as
data points recover. -/
def recoverLoop (d : OrchDeps) : List ExtErr → LoopSt → Except (LoopSt × String) LoopSt
  | [], st => .ok st
  | e :: rest, st =>
    match recoverOne d st e with
    | .ok st' => recoverLoop d rest st'
    | .error err => .error err

structure OFinal where
  success : Bool
  plan : Option OPlan := none
  selectors : List (String × Option String) := []
  data : List (String × JValue) := []
  issues : List OrchIssue := []
  error : Option String := none

/-- The `try` body of `processRequest` (lines 61–175); an error carries the
locals at the point of the throw. -/
def runBody (d : OrchDeps) : Except (OVars × String) OFinal :=
  let v0 : OVars := {}
  match fetchHtmlSample d with
  | .error e => .error (v0, e)
  | .ok htmlSample =>
    match d.createPlan htmlSample with
    | .error e => .error (v0, e)
    | .ok planOpt =>
      match planOpt with
      | none => .error (v0, "Planning failed: No data points were identified.")
      | some p =>
        let v1 := { v0 with plan := some p }
        if noDataPoints p then
          .error (v1, "Planning failed: No data points were identified.")
        else
          match d.generateSelectors p htmlSample with
          | .error e => .error (v1, e)
          | .ok p2 =>
            let v2 := { v1 with plan := some p2 }
            match d.extractData p2 with
            | .error e => .error (v2, e)
            | .ok exOut =>
              let v3 :=
                { v2 with
                  rawData := exOut.rawData
                  extractionErrors := exOut.extractionErrors }
              let loopRes :=
                if exOut.extractionErrors.length > 0 then
                  recoverLoop d exOut.extractionErrors
                    { plan := p2, rawData := exOut.rawData,
                      extErrs := exOut.extractionErrors, attempts := [] }
                else
                  .ok { plan := p2, rawData := exOut.rawData,
                        extErrs := exOut.extractionErrors, attempts := [] }
              match loopRes with
              | .error (lst, e) =>
                .error
                  ({ v3 with
                     plan := some lst.plan
                     rawData := lst.rawData
                     extractionErrors := lst.extErrs }, e)
              | .ok lst =>
                let v4 :=
                  { v3 with
                    plan := some lst.plan
                    rawData := lst.rawData
                    extractionErrors := lst.extErrs }
                match d.validate lst.rawData lst.plan with
                | .error e => .error (v4, e)
                | .ok valOut =>
                  let v5 :=
                    { v4 with
                      validatedData := valOut.validatedData
                      validationIssues := valOut.validationIssues }
                  match lst.plan.dataPoints with
                  | none =>
                    .error (v5,
                      "TypeError: Cannot read properties of undefined (reading 'forEach')")
                  | some dps =>
                    let finalSelectors :=
                      dps.map (fun dp => (dp.id, dp.potentialSelectors.head?))
                    .ok { success := true
                        , plan := some lst.plan
                        , selectors := finalSelectors
                        , data := valOut.validatedData
                        , issues := lst.extErrs.map .ext ++
                            valOut.validationIssues.map .val
                        , error := none }

/-- `AgentOrchestrator.processRequest` (lines 50–188): the catch clause turns
the locals at the throw into the failure `OrchestrationResult`. -/
def processRequest (d : OrchDeps) : OFinal :=
  match runBody d with
  | .ok f => f
  | .error (v, msg) =>
    { success := false
    , error := some ("Orchestration failed: " ++ msg)
    , plan := v.plan
    , selectors := v.finalSelectors
    , data := v.validatedData
    , issues := v.extractionErrors.map .ext ++ v.validationIssues.map .val ++
        [.tagged { type := "orchestration", error := some msg, issue := none }] }

end Orch

/-!
# Claims
-/

/-- C7: a field declared `type: 'url'` with raw value `'/a/b'` and a plan
whose `targetUrl` is `'https://x.com'` validates to `'https://x.com/a/b'` —
the relative URL is resolved against the plan's `targetUrl` before being
declared invalid.  Holds for both validator implementations, with no
validation issues logged. -/
theorem C7_url_relative_resolution :
    (ValidatorJS.validateData
        (some [("u", JScore.JValue.str "/a/b")])
        (some { dataPoints := some [{ id := "u", type := "url" }]
              , targetUrl := some "https://x.com" }) =
      .ok { validatedData := [("u", JScore.JValue.str "https://x.com/a/b")]
          , validationIssues := [] })
    ∧
    (ValidatorTS.validateData
        (some [("u", JScore.JValue.str "/a/b")])
        (some { dataPoints := some [{ id := "u", type := "url" }]
              , targetUrl := some "https://x.com" }) =
      .ok { validatedData := [("u", JScore.JValue.str "https://x.com/a/b")]
          , validationIssues := []
          , success := true }) :=
  ⟨rfl, rfl⟩

/-- Every field the `Key Fields` parser keeps has a non-empty name (the
`.filter(f => f.name)` on line 150). -/
theorem parseKeyFields_name_ne (rt : String) :
    ∀ f ∈ Planner.parseKeyFields rt, f.name ≠ "" := by
  intro f hf
  unfold Planner.parseKeyFields at hf
  cases h : Planner.sectionBetween rt "Key Fields" Planner.keyFieldsTerminators with
  | none => rw [h] at hf; simp at hf
  | some sec =>
    rw [h] at hf
    have := (List.mem_filter.mp hf).2
    simpa using this

/-- C2, amended: `parseExtractionPlan` always reports `success = true` (its
catch block is unreachable), and every key field it keeps has a non-empty
name — but `keyFields` itself may be empty even when `success` is `true`
(see the counterexample), so the claimed invariant
`success = true → keyFields ≠ []` does not hold.  The same holds for plans
returned by `createExtractionPlan`. -/
theorem C2_keyFields_best_effort :
    (∀ responseText, (Planner.parseExtractionPlan responseText).success = true) ∧
    (∀ responseText f, f ∈ (Planner.parseExtractionPlan responseText).keyFields →
      f.name ≠ "") ∧
    (∀ llm targetUrl goal html f,
      f ∈ (Planner.createExtractionPlan llm targetUrl goal html).keyFields →
      f.name ≠ "") := by
  refine ⟨fun _ => rfl, fun rt f hf => parseKeyFields_name_ne rt f hf, ?_⟩
  intro llm targetUrl goal html f hf
  unfold Planner.createExtractionPlan at hf
  cases hllm : llm (Planner.plannerPrompt targetUrl goal
      (Planner.truncateHtml html 30000)) with
  | error e => rw [hllm] at hf; simp at hf
  | ok o =>
    rw [hllm] at hf
    cases o with
    | none => simp at hf
    | some resp =>
      by_cases ht : resp.text = ""
      · simp [ht] at hf
      · by_cases hs : (Planner.parseExtractionPlan resp.text).schema.isNone
        · simp [ht, hs] at hf
          exact parseKeyFields_name_ne resp.text f hf
        · simp [ht, hs] at hf
          exact parseKeyFields_name_ne resp.text f hf

/-- C2, counterexample to the claim as stated: an empty (or section-free) LLM
response parses to a plan with `success = true` and `keyFields = []`, and
`createExtractionPlan` returns it that way — `success == true` does not imply
a non-empty `keyFields`.  (The repository's own plannerAgent test asserts
exactly this behaviour for unparseable text.) -/
theorem C2_counterexample :
    (Planner.parseExtractionPlan "").success = true ∧
    (Planner.parseExtractionPlan "").keyFields = [] ∧
    (Planner.createExtractionPlan (fun _ => .ok (some { text := "x" }))
        "https://x.com" "goal" "<html></html>").success = true ∧
    (Planner.createExtractionPlan (fun _ => .ok (some { text := "x" }))
        "https://x.com" "goal" "<html></html>").keyFields = [] :=
  ⟨rfl, rfl, rfl, rfl⟩

/-- When the resolved provider's `query` resolves (with or without an `error`
field), `LLMBridge.query` returns that response with `provider` set to the
routed target id, after exactly one provider call. -/
theorem query_resolved_ok (b : Bridge.LLMBridge) (prompt : String) (options : Bridge.Opts)
    (t : String) (p : Bridge.ProviderFun) (r : Bridge.Resp)
    (ht : Bridge.resolveTarget b options = some t) (htne : t ≠ "")
    (hp : Bridge.lookupProvider b.providers t = some p)
    (hr : p prompt (Bridge.optsAfterRouting b options) = .ok r) :
    Bridge.query b prompt options = ({ r with provider := some t }, [(t, prompt)]) := by
  rw [Bridge.query]
  simp [ht, htne, hp, hr]

/-- With no `fallbackProvider`, `query` performs at most one provider call. -/
theorem query_no_fallback_log (b : Bridge.LLMBridge) (prompt : String)
    (options : Bridge.Opts) (h : options.fallbackProvider = none) :
    (Bridge.query b prompt options).2.length ≤ 1 := by
  have h1 : (Bridge.optsAfterRouting b options).fallbackProvider = none := by
    rw [Bridge.optsAfterRouting_fallback, h]
  rw [Bridge.query]
  cases hres : Bridge.resolveTarget b options with
  | none => simp
  | some t =>
    by_cases htne : t = ""
    · simp [htne]
    · cases hp : Bridge.lookupProvider b.providers t with
      | none => simp [htne, hp]
      | some p =>
        cases hr : p prompt (Bridge.optsAfterRouting b options) with
        | ok r => simp [htne, hp, hr]
        | error e =>
          simp only [htne, hp, hr, if_neg, ite_false]
          split
          · next fb hfb =>
              rw [h1] at hfb
              exact Option.noConfusion hfb
          · simp [htne, hp, hr]

/-- C9: the fallback retry triggers only when the provider's `query` call
throws.  If the selected provider resolves normally to a response object —
even one carrying an `error` field and empty text — that response is
returned as-is with `provider` set to the (routed) provider that was tried,
after exactly one provider call, and `options.fallbackProvider` is never
consulted. -/
theorem C9_resolved_response_skips_fallback (b : Bridge.LLMBridge) (prompt : String)
    (options : Bridge.Opts) (t : String) (p : Bridge.ProviderFun) (r : Bridge.Resp)
    (ht : Bridge.resolveTarget b options = some t) (htne : t ≠ "")
    (hp : Bridge.lookupProvider b.providers t = some p)
    (hr : p prompt (Bridge.optsAfterRouting b options) = .ok r) :
    Bridge.query b prompt options = ({ r with provider := some t }, [(t, prompt)]) :=
  query_resolved_ok b prompt options t p r ht htne hp hr

def c9Bridge : Bridge.LLMBridge :=
  { providers := [("ollama", fun _ _ => .ok { text := "", error := some "quota" })] }

def c9Opts : Bridge.Opts :=
  { provider := some "ollama", fallbackProvider := some "external" }

/-- C9 at a concrete input: the provider resolves with an `error` field and
empty text, a fallback is configured, yet the response is returned as-is
(provider `ollama`, one single call). -/
theorem C9_witness :
    Bridge.query c9Bridge "p" c9Opts =
      ({ text := "", error := some "quota", model := none, provider := some "ollama" },
       [("ollama", "p")]) :=
  C9_resolved_response_skips_fallback c9Bridge "p" c9Opts "ollama"
    (fun _ _ => .ok { text := "", error := some "quota" })
    { text := "", error := some "quota" } rfl (by decide) rfl rfl

/-- The options of the fallback retry (`{ ...options, provider:
options.fallbackProvider, fallbackProvider: undefined }` after the routing
mutation). -/
def retryOpts (b : Bridge.LLMBridge) (options : Bridge.Opts) (fb : String) : Bridge.Opts :=
  { Bridge.optsAfterRouting b options with provider := some fb, fallbackProvider := none }

/-- When the selected provider throws and a usable fallback is configured,
`query` recurses exactly once, on the same prompt, with `provider` set to the
fallback and `fallbackProvider` cleared. -/
theorem query_throw_retry_shape (b : Bridge.LLMBridge) (prompt : String)
    (options : Bridge.Opts) (t1 fb e : String) (p1 : Bridge.ProviderFun)
    (ht : Bridge.resolveTarget b options = some t1) (htne : t1 ≠ "")
    (hp : Bridge.lookupProvider b.providers t1 = some p1)
    (hr : p1 prompt (Bridge.optsAfterRouting b options) = .error e)
    (hfb : (Bridge.optsAfterRouting b options).fallbackProvider = some fb)
    (hfbne : fb ≠ "") (hfbt : fb ≠ t1) :
    Bridge.query b prompt options =
      ((Bridge.query b prompt (retryOpts b options fb)).1,
        (t1, prompt) :: (Bridge.query b prompt (retryOpts b options fb)).2) := by
  rw [Bridge.query]
  simp only [ht, hp, hr]
  simp only [htne, if_neg, ite_false]
  split
  · next fb' hfb' =>
      rw [hfb] at hfb'
      cases hfb'
      rw [if_pos ⟨hfbne, hfbt⟩]
      rfl
  · next hfb' =>
      rw [hfb] at hfb'
      exact Option.noConfusion hfb'

/-- C3, amended: when the selected provider throws and a non-empty
`fallbackProvider` different from the routed target is set, `query` performs
exactly one retry — the same prompt, `provider` set to the fallback,
`fallbackProvider` cleared so the retry itself performs at most one provider
call — and when the fallback resolves to a registered provider the final
response's `provider` field equals the *routed* target of the fallback: the
fallback id itself when it is registered directly, but `'external'` when the
fallback names an external alias (openai/mistral/anthropic), contrary to the
claim's "equal to B" (see the counterexample). -/
theorem C3_fallback_single_retry (b : Bridge.LLMBridge) (prompt : String)
    (options : Bridge.Opts) (t1 fb e : String) (p1 : Bridge.ProviderFun)
    (ht : Bridge.resolveTarget b options = some t1) (htne : t1 ≠ "")
    (hp : Bridge.lookupProvider b.providers t1 = some p1)
    (hr : p1 prompt (Bridge.optsAfterRouting b options) = .error e)
    (hfb : (Bridge.optsAfterRouting b options).fallbackProvider = some fb)
    (hfbne : fb ≠ "") (hfbt : fb ≠ t1) :
    Bridge.query b prompt options =
      ((Bridge.query b prompt (retryOpts b options fb)).1,
        (t1, prompt) :: (Bridge.query b prompt (retryOpts b options fb)).2) ∧
    (Bridge.query b prompt (retryOpts b options fb)).2.length ≤ 1 ∧
    (∀ t2 p2 r2, Bridge.resolveTarget b (retryOpts b options fb) = some t2 → t2 ≠ "" →
      Bridge.lookupProvider b.providers t2 = some p2 →
      p2 prompt (Bridge.optsAfterRouting b (retryOpts b options fb)) = .ok r2 →
      Bridge.query b prompt (retryOpts b options fb) =
        ({ r2 with provider := some t2 }, [(t2, prompt)])) :=
  ⟨query_throw_retry_shape b prompt options t1 fb e p1 ht htne hp hr hfb hfbne hfbt,
   query_no_fallback_log b prompt _ rfl,
   fun t2 p2 r2 h2 h2ne h2p h2r => query_resolved_ok b prompt _ t2 p2 r2 h2 h2ne h2p h2r⟩

def c3Bridge : Bridge.LLMBridge :=
  { providers := [("ollama", fun _ _ => .error "boom"),
                  ("external", fun _ _ => .ok { text := "hi" })] }

def c3Opts : Bridge.Opts :=
  { provider := some "ollama", fallbackProvider := some "external" }

/-- C3 at a concrete input: `ollama` throws, the fallback `external` is
directly registered — exactly one retry happens and the retry performs no
further provider call. -/
theorem C3_witness :
    Bridge.query c3Bridge "p" c3Opts =
      ((Bridge.query c3Bridge "p" (retryOpts c3Bridge c3Opts "external")).1,
        ("ollama", "p") :: (Bridge.query c3Bridge "p" (retryOpts c3Bridge c3Opts "external")).2) ∧
    (Bridge.query c3Bridge "p" (retryOpts c3Bridge c3Opts "external")).2.length ≤ 1 := by
  have h := C3_fallback_single_retry c3Bridge "p" c3Opts "ollama" "external" "boom"
    (fun _ _ => .error "boom") rfl (by decide) rfl rfl rfl (by decide) (by decide)
  exact ⟨h.1, h.2.1⟩

def c3OptsAlias : Bridge.Opts :=
  { provider := some "ollama", fallbackProvider := some "openai" }

/-- C3, counterexample to the claim as stated: provider `ollama` throws with
`fallbackProvider = "openai"`; the retry is routed to the registered
`'external'` connector, so the final response's `provider` field is
`'external'`, not `B = "openai"` — even though exactly one retry occurred. -/
theorem C3_counterexample :
    (Bridge.query c3Bridge "p" c3OptsAlias).2 = [("ollama", "p"), ("external", "p")] ∧
    (Bridge.query c3Bridge "p" c3OptsAlias).1.provider = some "external" ∧
    ¬ (Bridge.query c3Bridge "p" c3OptsAlias).1.provider = some "openai" := by
  have houter := query_throw_retry_shape c3Bridge "p" c3OptsAlias "ollama" "openai" "boom"
    (fun _ _ => .error "boom") rfl (by decide) rfl rfl rfl (by decide) (by decide)
  have hinner := query_resolved_ok c3Bridge "p" (retryOpts c3Bridge c3OptsAlias "openai")
    "external" (fun _ _ => .ok { text := "hi" }) { text := "hi" } rfl (by decide) rfl rfl
  rw [houter, hinner]
  refine ⟨rfl, rfl, by simp⟩

/-- A passing `testSelector` means the content script resolved with
`success === true` and a positive match count. -/
theorem testSelector_spec (send : Recovery.SendFun) (sel : String)
    (h : Recovery.testSelector send sel = true) :
    ∃ r, send sel = .ok r ∧ r.success = true ∧ r.count > 0 := by
  unfold Recovery.testSelector at h
  cases hs : send sel with
  | ok r =>
    rw [hs] at h
    simp only [decide_eq_true_eq] at h
    exact ⟨r, rfl, by simpa using h.1, h.2⟩
  | error e => rw [hs] at h; simp at h

/-- The candidate-testing loop only ever adds candidates whose live test
passed. -/
theorem testAlternatives_inv (send : Recovery.SendFun) (alts : List String) :
    ∀ acc : Recovery.RecoveryResult,
      (∀ s ∈ acc.alternativeSelectors, Recovery.testSelector send s = true) →
      ∀ s ∈ (Recovery.testAlternatives send alts acc).alternativeSelectors,
        Recovery.testSelector send s = true := by
  induction alts with
  | nil => intro acc hacc; exact hacc
  | cons a rest ih =>
    intro acc hacc
    by_cases hta : Recovery.testSelector send a = true
    · by_cases hmem : a ∈ acc.alternativeSelectors
      · have heq : Recovery.testAlternatives send (a :: rest) acc =
            Recovery.testAlternatives send rest
              { recoverySuccessful := true
              , alternativeSelectors := acc.alternativeSelectors } := by
          simp [Recovery.testAlternatives, hta, hmem]
        rw [heq]
        exact ih _ hacc
      · have heq : Recovery.testAlternatives send (a :: rest) acc =
            Recovery.testAlternatives send rest
              { recoverySuccessful := true
              , alternativeSelectors := acc.alternativeSelectors ++ [a] } := by
          simp [Recovery.testAlternatives, hta, hmem]
        rw [heq]
        refine ih _ ?_
        intro s hs
        rcases List.mem_append.mp hs with h | h
        · exact hacc s h
        · rw [List.mem_singleton.mp h]; exact hta
    · have hta' : Recovery.testSelector send a = false := by
        simpa using hta
      have heq : Recovery.testAlternatives send (a :: rest) acc =
          Recovery.testAlternatives send rest acc := by
        simp [Recovery.testAlternatives, hta']
      rw [heq]
      exact ih acc hacc

/-- The strategy loop only ever returns candidates whose live test passed. -/
theorem attemptRecoveryGo_inv (send : Recovery.SendFun)
    (strategies : List (Except String (List String))) :
    ∀ acc : Recovery.RecoveryResult,
      (∀ s ∈ acc.alternativeSelectors, Recovery.testSelector send s = true) →
      ∀ s ∈ (Recovery.attemptRecoveryGo send strategies acc).alternativeSelectors,
        Recovery.testSelector send s = true := by
  induction strategies with
  | nil => intro acc hacc; exact hacc
  | cons st rest ih =>
    intro acc hacc
    cases st with
    | error e =>
      intro s hs
      refine ih acc hacc s ?_
      simpa [Recovery.attemptRecoveryGo] using hs
    | ok alts =>
      have hacc' : ∀ s ∈ (if alts.length > 0 then
            Recovery.testAlternatives send alts acc else acc).alternativeSelectors,
          Recovery.testSelector send s = true := by
        by_cases hl : alts.length > 0
        · simpa [hl] using testAlternatives_inv send alts acc hacc
        · simpa [hl] using hacc
      by_cases hrs : (if alts.length > 0 then
          Recovery.testAlternatives send alts acc else acc).recoverySuccessful = true
      · intro s hs
        refine hacc' s ?_
        simpa [Recovery.attemptRecoveryGo, hrs] using hs
      · intro s hs
        refine ih _ hacc' s ?_
        simpa [Recovery.attemptRecoveryGo, hrs] using hs

/-- C4: every selector in the `alternativeSelectors` of the result of
`ErrorRecoveryAgent.attemptRecovery` (and of its underlying strategy loop,
whatever candidate strategies produced) passed a live `testSelector` call:
the content script resolved with `success === true` and a match count > 0.
No candidate with zero matches or a failed test appears. -/
theorem C4_recovery_selectors_live_tested :
    (∀ (send : Recovery.SendFun) (strategies : List (Except String (List String)))
        (sel : String),
        sel ∈ (Recovery.attemptRecoveryGo send strategies {}).alternativeSelectors →
        Recovery.testSelector send sel = true ∧
          ∃ r, send sel = .ok r ∧ r.success = true ∧ r.count > 0) ∧
    (∀ (llm : String → Except String Recovery.BridgeResp) (send : Recovery.SendFun)
        (dpDescription failedSelector errorMessage htmlSample sel : String),
        sel ∈ (Recovery.attemptRecovery llm send dpDescription failedSelector
            errorMessage htmlSample).alternativeSelectors →
        Recovery.testSelector send sel = true ∧
          ∃ r, send sel = .ok r ∧ r.success = true ∧ r.count > 0) := by
  constructor
  · intro send strategies sel hmem
    have ht := attemptRecoveryGo_inv send strategies {}
      (fun s hs => absurd hs (List.not_mem_nil s)) sel hmem
    exact ⟨ht, testSelector_spec send sel ht⟩
  · intro llm send dpDescription failedSelector errorMessage htmlSample sel hmem
    simp only [Recovery.attemptRecovery] at hmem
    have ht := attemptRecoveryGo_inv send _ {}
      (fun s hs => absurd hs (List.not_mem_nil s)) sel hmem
    exact ⟨ht, testSelector_spec send sel ht⟩

/-- A content-script stub that reports one match for every selector. -/
def c4Send : Recovery.SendFun := fun _ => .ok { success := true, count := 1 }

/-- Witness for C4 at a concrete strategy outcome: the loop keeps "a" and
"a" indeed passed the live test. -/
theorem C4_witness :
    Recovery.testSelector c4Send "a" = true ∧
    ∃ r, c4Send "a" = .ok r ∧ r.success = true ∧ r.count > 0 :=
  C4_recovery_selectors_live_tested.1 c4Send [.ok ["a"]] "a"
    (by
      rw [show (Recovery.attemptRecoveryGo c4Send [.ok ["a"]]
          {}).alternativeSelectors = ["a"] from rfl]
      exact List.mem_singleton.mpr rfl)

/-- C8 (amended): the TypeScript `SelectorAgent.convertSelector` short-circuits
when the heuristic type (leading `/`, `./` or `(` means XPath, else CSS) already
equals the target, returning the selector unchanged with zero model calls;
otherwise it makes exactly one model call and, on a clean reply, returns the
reply trimmed and stripped of one surrounding quote/backtick pair.  The
JavaScript variant (part_006) never short-circuits: it classifies XPath only by
a leading `/` and always makes exactly one model call. -/
theorem C8_convertSelector_behaviour :
    (∀ (llm : String → Except String Sel.BridgeResp) (selector targetType : String),
        Sel.heuristicType selector = targetType →
        Sel.convertSelector llm selector targetType =
          ({ success := true, originalSelector := selector,
             convertedSelector := some selector,
             originalType := Sel.heuristicType selector,
             targetType := targetType }, 0)) ∧
    (∀ (llm : String → Except String Sel.BridgeResp) (selector targetType : String)
        (r : Sel.BridgeResp),
        ¬ Sel.heuristicType selector = targetType →
        (∀ p, llm p = .ok r) →
        ¬ JScore.jsTruthyStr r.error = true →
        ¬ r.text = "" →
        Sel.convertSelector llm selector targetType =
          ({ success := true, originalSelector := selector,
             convertedSelector := some (Sel.stripWrap (JScore.jsTrim r.text)),
             originalType := Sel.heuristicType selector,
             targetType := targetType }, 1)) ∧
    (∀ (llm : String → Except String Sel.BridgeResp) (selector targetType : String),
        (Sel.convertSelectorJS llm selector targetType).2 = 1) := by
  refine ⟨?_, ?_, ?_⟩
  · intro llm selector targetType h
    simp only [Sel.convertSelector]
    rw [if_pos h]
  · intro llm selector targetType r hne hllm herr htext
    simp only [Sel.convertSelector, hllm]
    rw [if_neg hne, if_neg (not_or.mpr ⟨herr, htext⟩)]
  · intro llm selector targetType
    simp only [Sel.convertSelectorJS]
    split
    · rfl
    · split <;> rfl

/-- An LLM stub replying with an XPath conversion. -/
def c8WLlm : String → Except String Sel.BridgeResp := fun _ => .ok { text := "//a" }

/-- Witness for C8: a CSS selector asked for as XPath goes through the model
path once. -/
theorem C8_witness :
    Sel.convertSelector c8WLlm "div" "xpath" =
      ({ success := true, originalSelector := "div",
         convertedSelector := some (Sel.stripWrap (JScore.jsTrim "//a")),
         originalType := Sel.heuristicType "div", targetType := "xpath" }, 1) :=
  C8_convertSelector_behaviour.2.1 c8WLlm "div" "xpath" { text := "//a" }
    (by decide) (fun _ => rfl) (by decide) (by decide)

/-- An LLM stub whose reply wraps a different selector in double quotes. -/
def c8Llm : String → Except String Sel.BridgeResp := fun _ => .ok { text := "\"span\"" }

/-- Counterexample for C8: for the already-CSS selector "div" with target
"css", the TS variant makes zero model calls, but the JS variant still makes
one model call and replaces the selector with the model's reply. -/
theorem C8_counterexample :
    (Sel.convertSelector c8Llm "div" "css").2 = 0 ∧
    (Sel.convertSelectorJS c8Llm "div" "css").2 = 1 ∧
    (Sel.convertSelectorJS c8Llm "div" "css").1.convertedSelector = some "span" ∧
    ¬ (Sel.convertSelectorJS c8Llm "div" "css").1.convertedSelector = some "div" := by
  refine ⟨rfl, rfl, rfl, by decide⟩

/-- The JS `cleanAndValidateItem` never produces `undefined`. -/
theorem cleanJS_fst_not_undef (dpId ty : String) (tu : Option String)
    (item : JScore.JValue) :
    ¬ (ValidatorJS.cleanAndValidateItem dpId ty tu item).1 = JScore.JValue.undef := by
  cases item <;>
    simp only [ValidatorJS.cleanAndValidateItem, JScore.isNullish] <;>
    (try simp) <;>
    (repeat' split) <;> simp_all

/-- C10 (amended): for a list data point whose raw binding is an array, both
validators produce an array value built by cleaning every entry and filtering
the nullish results (JS filters `null`, and its cleaner never yields
`undefined`; TS filters all nullish values), so the validated list is at most
as long as the raw list.  When a non-empty raw list is emptied this way, the
JS validator logs an issue carrying the original count; the TS validator does
so only when at least one raw entry was non-nullish. -/
theorem C10_list_cleaning :
    (∀ (rd : List (String × JScore.JValue)) (tu : Option String)
        (dp : ValidatorJS.DataPoint) (items : List JScore.JValue),
        dp.isList = true →
        ValidatorJS.lookupRaw rd dp.id = some (.arr items) →
        ∃ outList : List JScore.JValue,
          (ValidatorJS.processDp rd tu dp).1 = .arr outList ∧
          (∀ v ∈ outList, ¬ JScore.isNull v = true ∧ ¬ v = JScore.JValue.undef) ∧
          outList.length ≤ items.length ∧
          (0 < items.length → outList.length = 0 →
            ({ dpId := dp.id, issue := "List empty after validation/cleaning.",
               value := none, originalCount := some items.length } : ValidatorJS.Issue) ∈
              (ValidatorJS.processDp rd tu dp).2)) ∧
    (∀ (rd : List (String × JScore.JValue)) (tu : Option String)
        (dp : ValidatorJS.DataPoint) (items : List JScore.JValue),
        dp.isList = true →
        ValidatorJS.lookupRaw rd dp.id = some (.arr items) →
        ∀ (out : JScore.JValue) (iss : List ValidatorJS.Issue),
          ValidatorTS.processDp rd tu dp = .ok (out, iss) →
          ∃ outList : List JScore.JValue,
            out = .arr outList ∧
            (∀ v ∈ outList, ¬ JScore.isNullish v = true) ∧
            outList.length ≤ items.length ∧
            (0 < items.length → outList.length = 0 →
              ¬ items.all JScore.isNullish = true →
              ({ dpId := dp.id, issue := "List empty after validation/cleaning.",
                 value := none, originalCount := some items.length } : ValidatorJS.Issue) ∈
                iss)) := by
  constructor
  · intro rd tu dp items hl hlk
    refine ⟨((items.map (ValidatorJS.cleanAndValidateItem dp.id dp.type tu)).map Prod.fst).filter (fun v => ¬ JScore.isNull v), ?_, ?_, ?_, ?_⟩
    · simp [ValidatorJS.processDp, hlk, hl, JScore.isArr, JScore.isNullish]
    · intro v hv
      simp only [List.map_map, List.mem_filter, List.mem_map] at hv
      obtain ⟨⟨it, hit, rfl⟩, hfilt⟩ := hv
      refine ⟨?_, cleanJS_fst_not_undef dp.id dp.type tu it⟩
      simpa using hfilt
    · exact le_trans (List.length_filter_le _ _) (by simp)
    · intro hpos h0
      simp at h0
      simp [ValidatorJS.processDp, hlk, hl, JScore.isArr, JScore.isNullish,
        ValidatorJS.rawLengthOf, ValidatorJS.optGtZero, hpos]
      refine Or.inr ?_
      rw [if_pos h0]
      simp
  · intro rd tu dp items hl hlk out iss hok
    unfold ValidatorTS.processDp at hok
    simp [hlk, hl, JScore.isArr] at hok
    split at hok
    · rename_i o i heq
      simp only [Except.ok.injEq, Prod.mk.injEq] at hok
      obtain ⟨rfl, rfl⟩ := hok
      split at heq
      · simp only [Except.ok.injEq, Prod.mk.injEq] at heq
        obtain ⟨rfl, rfl⟩ := heq
        refine ⟨_, rfl, ?_, ?_, ?_⟩
        · intro v hv
          simp only [List.mem_filter, List.mem_map] at hv
          obtain ⟨-, hfilt⟩ := hv
          simpa using hfilt
        · exact le_trans (List.length_filter_le _ _) (by simp)
        · intro hpos h0 hnall
          rename_i tl hemp
          split at hemp
          · simp only [Except.ok.injEq] at hemp
            subst hemp
            have hD : ∃ x ∈ items, JScore.isNullish x = false := by
              simpa [List.all_eq_true, Bool.not_eq_true] using hnall
            simp [hD]
          · rename_i hC
            simp at h0
            exact absurd ⟨hpos, h0⟩ hC
      · simp at heq
    · simp at hok

/-- A raw binding holding a one-element list whose only entry is `null`. -/
def c10rd : List (String × JScore.JValue) :=
  [("a", JScore.JValue.arr [JScore.JValue.null])]

/-- A list-typed string data point. -/
def c10dp : ValidatorJS.DataPoint := { id := "a", type := "string", isList := true }

/-- A plan holding just `c10dp`. -/
def c10plan : ValidatorJS.VPlan := { dataPoints := some [c10dp], targetUrl := none }

/-- Witness for C10 at the concrete raw list `[null]`. -/
theorem C10_witness :
    ∃ outList : List JScore.JValue,
      (ValidatorJS.processDp c10rd none c10dp).1 = .arr outList ∧
      (∀ v ∈ outList, ¬ JScore.isNull v = true ∧ ¬ v = JScore.JValue.undef) ∧
      outList.length ≤ [JScore.JValue.null].length ∧
      (0 < [JScore.JValue.null].length → outList.length = 0 →
        ({ dpId := c10dp.id, issue := "List empty after validation/cleaning.",
           value := none, originalCount := some [JScore.JValue.null].length } :
           ValidatorJS.Issue) ∈ (ValidatorJS.processDp c10rd none c10dp).2) :=
  C10_list_cleaning.1 c10rd none c10dp [JScore.JValue.null] rfl rfl

/-- The original-count issue the JS validator logs for `c10rd`. -/
def c10jsIssue : ValidatorJS.Issue :=
  { dpId := "a", issue := "List empty after validation/cleaning.", value := none, originalCount := some 1 }

/-- The only issue the TS validator logs for `c10rd`: no original count. -/
def c10tsIssue : ValidatorJS.Issue :=
  { dpId := "a", issue := "Required item is missing, null, or empty after validation.", value := some (JScore.JValue.arr []), originalCount := none }

/-- Counterexample for C10: for the non-empty raw list `[null]`, which is
emptied by cleaning, the JS validator logs the original-count issue but the
TS validator does not — it only reports the required-field issue, with no
`originalCount`. -/
theorem C10_counterexample :
    ValidatorJS.validateData (some c10rd) (some c10plan) =
      .ok { validatedData := [("a", JScore.JValue.arr [])], validationIssues := [c10jsIssue] } ∧
    ValidatorTS.validateData (some c10rd) (some c10plan) =
      .ok { validatedData := [("a", JScore.JValue.arr [])], validationIssues := [c10tsIssue], success := false, error := none } := ⟨rfl, rfl⟩

/-- The TS `cleanAndValidateItem` preserves nullishness: it returns `null`
exactly for nullish input and never introduces a nullish value. -/
theorem cleanTS_fst_isNullish (dpId ty : String) (tu : Option String)
    (item : JScore.JValue) :
    JScore.isNullish (ValidatorTS.cleanAndValidateItem dpId ty tu item).1 =
      JScore.isNullish item := by
  cases item <;>
    simp only [ValidatorTS.cleanAndValidateItem] <;>
    (repeat' split) <;>
    simp_all [JScore.isNullish]

/-- The modelled `TypeError` branch of the TS per-data-point loop is
unreachable: `processDp` always returns a result. -/
theorem processDpTS_ok (rd : List (String × JScore.JValue)) (tu : Option String)
    (dp : ValidatorJS.DataPoint) : ∃ r, ValidatorTS.processDp rd tu dp = .ok r := by
  unfold ValidatorTS.processDp
  cases hlk : ValidatorJS.lookupRaw rd dp.id with
  | none =>
    cases hb : dp.isList <;>
      simp [hlk, hb, JScore.isArr, JScore.isNullish]
  | some v =>
    cases v <;> cases hb : dp.isList <;>
      (simp [hlk, hb, JScore.isArr, cleanTS_fst_isNullish]; try simp [JScore.isNullish]; try ((repeat' split) <;> first | (rename_i h1; split at h1 <;> (try (rename_i h2; split at h2)) <;> simp_all) | simp))

/-- Auxiliary: the accumulator loop behind `List.mapM` never fails on the TS
per-data-point step. -/
theorem mapM_loop_processDpTS_ok (rd : List (String × JScore.JValue))
    (tu : Option String) :
    ∀ (dps : List ValidatorJS.DataPoint)
      (acc : List (JScore.JValue × List ValidatorJS.Issue)),
      ∃ rs, List.mapM.loop (ValidatorTS.processDp rd tu) dps acc = .ok rs := by
  intro dps
  induction dps with
  | nil => intro acc; exact ⟨acc.reverse, rfl⟩
  | cons d rest ih =>
    intro acc
    obtain ⟨r, hr⟩ := processDpTS_ok rd tu d
    obtain ⟨rs, hrs⟩ := ih (r :: acc)
    refine ⟨rs, ?_⟩
    show (ValidatorTS.processDp rd tu d >>= fun x =>
      List.mapM.loop (ValidatorTS.processDp rd tu) rest (x :: acc)) = Except.ok rs
    rw [hr]
    exact hrs

/-- Mapping the TS per-data-point step over any plan never fails. -/
theorem mapM_processDpTS_ok (rd : List (String × JScore.JValue)) (tu : Option String)
    (dps : List ValidatorJS.DataPoint) :
    ∃ rs, dps.mapM (ValidatorTS.processDp rd tu) = .ok rs :=
  mapM_loop_processDpTS_ok rd tu dps []

/-- The error-shaped result the TS validator returns on malformed input. -/
def c6ErrOut : ValidatorTS.VOut :=
  { validatedData := [], validationIssues := [], success := false, error := some "Invalid rawData or plan structure provided." }

/-- C6 (amended): the TS `ValidatorAgent.validateData` always returns a
validation result, even on malformed input (it reports the problem through
the result's `error` field).  The JS variant however throws exactly when
`rawData` or `plan` is missing or `plan.dataPoints` is not an array. -/
theorem C6_validateData_totality :
    (∀ (rawData : Option (List (String × JScore.JValue)))
        (plan : Option ValidatorJS.VPlan),
        ∃ out, ValidatorTS.validateData rawData plan = .ok out) ∧
    (∀ (rawData : Option (List (String × JScore.JValue)))
        (plan : Option ValidatorJS.VPlan),
        ValidatorJS.validateData rawData plan =
            .error "ValidatorAgent.validateData: Invalid rawData or plan provided." ↔
          (rawData = none ∨ plan = none ∨
            ∃ p, plan = some p ∧ p.dataPoints = none)) := by
  constructor
  · intro rawData plan
    match rawData, plan with
    | none, _ => exact ⟨c6ErrOut, rfl⟩
    | some rd, none => exact ⟨c6ErrOut, rfl⟩
    | some rd, some p =>
      match hdp : p.dataPoints with
      | none => exact ⟨c6ErrOut, by simp [ValidatorTS.validateData, hdp, c6ErrOut]⟩
      | some dps =>
        obtain ⟨rs, hrs⟩ := mapM_processDpTS_ok rd p.targetUrl dps
        have hrs2 : List.mapM.loop (ValidatorTS.processDp rd p.targetUrl) dps [] = .ok rs := hrs
        refine ⟨{ validatedData := (dps.zip rs).foldl (fun acc pr => ValidatorJS.setKey acc pr.1.id pr.2.1) [], validationIssues := rs.flatMap Prod.snd, success := (rs.flatMap Prod.snd).length == 0, error := none }, ?_⟩
        simp [ValidatorTS.validateData, hdp, hrs2, Except.map]
  · intro rawData plan
    match rawData, plan with
    | none, _ => simp [ValidatorJS.validateData]
    | some rd, none => simp [ValidatorJS.validateData]
    | some rd, some p =>
      match hdp : p.dataPoints with
      | none => simp [ValidatorJS.validateData, hdp]
      | some dps => simp [ValidatorJS.validateData, hdp]

/-- Counterexample for C6: on missing input the JS validator throws while the
TS validator returns an error-carrying result. -/
theorem C6_counterexample :
    ValidatorJS.validateData none none =
      .error "ValidatorAgent.validateData: Invalid rawData or plan provided." ∧
    ValidatorTS.validateData none none =
      .ok { validatedData := [], validationIssues := [], success := false,
            error := some "Invalid rawData or plan structure provided." } := ⟨rfl, rfl⟩

/-- A plan object with an empty `dataPoints` array. -/
def c1Plan : Orch.OPlan := { dataPoints := some [] }

/-- Collaborators for a run whose planning stage yields no data points. -/
def c1Deps : Orch.OrchDeps where
  fetchOffscreen := .ok { success := true, htmlContent := some "<html>", error := none }
  createPlan := fun _ => .ok (some c1Plan)
  generateSelectors := fun p _ => .ok p
  extractData := fun _ => .ok { rawData := [], extractionErrors := [] }
  attemptRecovery := fun _ _ _ => .ok {}
  reExtract := fun _ _ => .ok {}
  validate := fun _ _ => .ok { validatedData := [], validationIssues := [] }

/-- The orchestration-tagged issue entry produced by the planning failure. -/
def c1Tagged : Orch.TaggedIssue :=
  { type := "orchestration", error := some "Planning failed: No data points were identified.", issue := none }

/-- The same entry as the spec describes it: message in an `issue` field. -/
def c1TaggedSpec : Orch.TaggedIssue :=
  { type := "orchestration", error := none, issue := some "Planning failed: No data points were identified." }

/-- C1 (amended): when any stage of `processRequest` throws, the result has
`success = false`, `error` prefixed with `Orchestration failed: `, the partial
`plan`/`selectors`/`data` gathered before the throw, and the accumulated
issues followed by one entry tagged `type: 'orchestration'` — but that entry
carries the exception message in its `error` field, not in an `issue` field.
The second conjunct instantiates this at a planning failure: the partial plan
survives into the failure result. -/
theorem C1_catch_preserves_partials :
    (∀ (d : Orch.OrchDeps) (v : Orch.OVars) (msg : String),
        Orch.runBody d = .error (v, msg) →
        Orch.processRequest d =
          { success := false
          , error := some ("Orchestration failed: " ++ msg)
          , plan := v.plan
          , selectors := v.finalSelectors
          , data := v.validatedData
          , issues := v.extractionErrors.map .ext ++ v.validationIssues.map .val ++
              [.tagged { type := "orchestration", error := some msg, issue := none }] }) ∧
    (∀ (d : Orch.OrchDeps) (html : String) (p : Orch.OPlan),
        Orch.fetchHtmlSample d = .ok html →
        d.createPlan html = .ok (some p) →
        Orch.noDataPoints p = true →
        Orch.processRequest d =
          { success := false
          , error := some "Orchestration failed: Planning failed: No data points were identified."
          , plan := some p
          , selectors := []
          , data := []
          , issues := [.tagged { type := "orchestration", error := some "Planning failed: No data points were identified.", issue := none }] }) := by
  constructor
  · intro d v msg h
    simp [Orch.processRequest, h]
  · intro d html p h1 h2 h3
    have hrun : Orch.runBody d =
        .error ({ plan := some p }, "Planning failed: No data points were identified.") := by
      simp only [Orch.runBody, h1, h2]
      simp [h3]
    simp [Orch.processRequest, hrun]

/-- Witness for C1: the concrete planning-failure run keeps the partial plan
and reports the orchestration issue entry. -/
theorem C1_witness :
    Orch.processRequest c1Deps =
      { success := false
      , error := some "Orchestration failed: Planning failed: No data points were identified."
      , plan := some c1Plan
      , selectors := []
      , data := []
      , issues := [.tagged { type := "orchestration", error := some "Planning failed: No data points were identified.", issue := none }] } :=
  C1_catch_preserves_partials.2 c1Deps "<html>" c1Plan rfl rfl rfl

/-- Counterexample for C1: the orchestration issue entry carries the message
in its `error` field; its `issue` field is absent (`none`), contradicting the
claim that `issue` equals the exception message. -/
theorem C1_counterexample :
    (Orch.processRequest c1Deps).issues = [.tagged c1Tagged] ∧
    ¬ (Orch.processRequest c1Deps).issues = [.tagged c1TaggedSpec] ∧
    c1Tagged.issue = none ∧ ¬ c1Tagged.issue = some "Planning failed: No data points were identified." := by
  refine ⟨rfl, ?_, rfl, by simp [c1Tagged]⟩
  rw [show (Orch.processRequest c1Deps).issues = [.tagged c1Tagged] from rfl]
  simp [c1Tagged, c1TaggedSpec]

/-- A valid http(s) URL contains no whitespace. -/
theorem isValidHttpUrl_noWs {s : String} (h : JScore.isValidHttpUrl s = true) :
    JScore.noWs s = true := by
  unfold JScore.isValidHttpUrl at h
  simp at h
  exact h.2

/-- The shapes an issue-free output of the JS `cleanAndValidateItem` can take,
per expected type. -/
def goodJS (ty : String) (v : JScore.JValue) : Prop :=
  v = .null ∨
  (if ty = "number" then ∃ q, v = .num q
   else if ty = "boolean" then ∃ b, v = .bool b
   else if ty = "url" ∨ ty = "image_url" then
     ∃ s, v = .str s ∧ JScore.isValidHttpUrl s = true
   else if ty = "date" then
     (∃ iso, v = .date iso) ∨ (∃ s, v = .str s ∧ JScore.isCanonISO s = true)
   else ∃ s, v = .str s ∧ JScore.normWs s = s)

/-- Good values are fixed points of the JS cleaner. -/
theorem goodJS_clean_fixed (dpId ty : String) (tu : Option String)
    (v : JScore.JValue) (hg : goodJS ty v) :
    ValidatorJS.cleanAndValidateItem dpId ty tu v = (v, []) := by
  rcases hg with rfl | hg
  · simp [ValidatorJS.cleanAndValidateItem, JScore.isNullish]
  by_cases h1 : ty = "number"
  · rw [if_pos h1] at hg
    obtain ⟨q, rfl⟩ := hg
    simp [ValidatorJS.cleanAndValidateItem, JScore.isNullish, h1]
  rw [if_neg h1] at hg
  by_cases h2 : ty = "boolean"
  · rw [if_pos h2] at hg
    obtain ⟨b, rfl⟩ := hg
    simp [ValidatorJS.cleanAndValidateItem, JScore.isNullish, h1, h2]
  rw [if_neg h2] at hg
  by_cases h3 : ty = "url" ∨ ty = "image_url"
  · rw [if_pos h3] at hg
    obtain ⟨s, rfl, hv⟩ := hg
    have hns : JScore.normWs s = s := JScore.normWs_of_noWs (isValidHttpUrl_noWs hv)
    simp [ValidatorJS.cleanAndValidateItem, JScore.isNullish, h1, h2, h3, hns, hv]
  rw [if_neg h3] at hg
  by_cases h4 : ty = "date"
  · rw [if_pos h4] at hg
    rcases hg with ⟨iso, rfl⟩ | ⟨s, rfl, hc⟩
    · simp [ValidatorJS.cleanAndValidateItem, JScore.isNullish, h1, h2, h3, h4]
    · have hns : JScore.normWs s = s :=
        JScore.normWs_of_noWs (JScore.isCanonISO_noWs hc)
      simp [ValidatorJS.cleanAndValidateItem, JScore.isNullish, h1, h2, h3, h4, hns,
        JScore.jsDateToISO_of_canon hc]
  rw [if_neg h4] at hg
  obtain ⟨s, rfl, hns⟩ := hg
  simp [ValidatorJS.cleanAndValidateItem, JScore.isNullish, h1, h2, h3, h4, hns]

/-- Issue-free outputs of the JS cleaner are good for their type. -/
theorem cleanJS_good (dpId ty : String) (tu : Option String)
    (item v : JScore.JValue)
    (h : ValidatorJS.cleanAndValidateItem dpId ty tu item = (v, [])) :
    goodJS ty v := by
  by_cases h0 : JScore.isNullish item = true
  · simp [ValidatorJS.cleanAndValidateItem, h0] at h
    exact Or.inl h.symm
  by_cases h1 : ty = "number"
  · cases item <;>
      first
        | (exfalso; revert h0; simp [JScore.isNullish]; done)
        | ((try simp [ValidatorJS.cleanAndValidateItem, JScore.isNullish, h1] at h) <;>
            (repeat' split at h) <;> (try replace h := h.symm) <;>
            simp_all [goodJS, h1])
  by_cases h2 : ty = "boolean"
  · cases item <;>
      first
        | (exfalso; revert h0; simp [JScore.isNullish]; done)
        | ((try simp [ValidatorJS.cleanAndValidateItem, JScore.isNullish, h1, h2] at h) <;>
            (repeat' split at h) <;> (try replace h := h.symm) <;>
            simp_all [goodJS, h1, h2])
  by_cases h3 : ty = "url" ∨ ty = "image_url"
  · cases item <;>
      first
        | (exfalso; revert h0; simp [JScore.isNullish]; done)
        | ((try simp [ValidatorJS.cleanAndValidateItem, JScore.isNullish, h1, h2, h3] at h) <;>
            (repeat' split at h) <;> (try replace h := h.symm) <;>
            simp_all [goodJS, h1, h2, h3])
  by_cases h4 : ty = "date"
  · cases item <;>
      first
        | (exfalso; revert h0; simp [JScore.isNullish]; done)
        | ((try simp [ValidatorJS.cleanAndValidateItem, JScore.isNullish, h1, h2, h3, h4] at h) <;>
            (repeat' split at h) <;> (try replace h := h.symm) <;>
            simp_all [goodJS, h1, h2, h3, h4] <;>
            (try (rename_i heq; exact JScore.jsDateToISO_canon heq)))
  cases item <;>
    first
      | (exfalso; revert h0; simp [JScore.isNullish]; done)
      | ((try simp [ValidatorJS.cleanAndValidateItem, JScore.isNullish, h1, h2, h3, h4] at h) <;>
          (repeat' split at h) <;> (try replace h := h.symm) <;>
          simp_all [goodJS, h1, h2, h3, h4, JScore.normWs_idem])

/-- Issue-free outputs of the JS cleaner are fixed points of it. -/
theorem cleanJS_idem (dpId ty : String) (tu : Option String)
    (item v : JScore.JValue)
    (h : ValidatorJS.cleanAndValidateItem dpId ty tu item = (v, [])) :
    ValidatorJS.cleanAndValidateItem dpId ty tu v = (v, []) :=
  goodJS_clean_fixed dpId ty tu v (cleanJS_good dpId ty tu item v h)

/-- Good values are never arrays. -/
theorem goodJS_not_arr {ty : String} {v : JScore.JValue} (hg : goodJS ty v) :
    JScore.isArr v = false := by
  rcases hg with rfl | hg
  · rfl
  by_cases h1 : ty = "number"
  · rw [if_pos h1] at hg; obtain ⟨q, rfl⟩ := hg; rfl
  rw [if_neg h1] at hg
  by_cases h2 : ty = "boolean"
  · rw [if_pos h2] at hg; obtain ⟨b, rfl⟩ := hg; rfl
  rw [if_neg h2] at hg
  by_cases h3 : ty = "url" ∨ ty = "image_url"
  · rw [if_pos h3] at hg; obtain ⟨s, rfl, -⟩ := hg; rfl
  rw [if_neg h3] at hg
  by_cases h4 : ty = "date"
  · rw [if_pos h4] at hg
    rcases hg with ⟨iso, rfl⟩ | ⟨s, rfl, -⟩ <;> rfl
  rw [if_neg h4] at hg
  obtain ⟨s, rfl, -⟩ := hg
  rfl

theorem isArr_arr (xs : List JScore.JValue) :
    JScore.isArr (JScore.JValue.arr xs) = true := rfl

theorem processDpJS_idem (rd rd' : List (String × JScore.JValue)) (tu : Option String)
    (dp : ValidatorJS.DataPoint) (v : JScore.JValue)
    (h : ValidatorJS.processDp rd tu dp = (v, []))
    (hlk : ValidatorJS.lookupRaw rd' dp.id = some v) :
    ValidatorJS.processDp rd' tu dp = (v, []) := by
  by_cases hb : dp.isList = true
  · cases hlk0 : ValidatorJS.lookupRaw rd dp.id with
    | none =>
      simp [ValidatorJS.processDp, hb, hlk0, JScore.isArr, JScore.isNullish,
        ValidatorJS.rawLengthOf, ValidatorJS.optGtZero] at h
      obtain ⟨h1, h3⟩ := h
      subst h1
      simp [ValidatorJS.processDp, hb, hlk, JScore.isArr, ValidatorJS.rawLengthOf,
        ValidatorJS.optGtZero]
      exact h3
    | some w =>
      by_cases hw : JScore.isArr w = true
      · cases w with
        | arr items =>
          simp [ValidatorJS.processDp, hb, hlk0, JScore.isArr,
            ValidatorJS.rawLengthOf, ValidatorJS.optGtZero] at h
          obtain ⟨h1, hflat, htail⟩ := h
          subst h1
          set L := List.filter (fun x => !JScore.isNull x)
            (List.map (Prod.fst ∘ ValidatorJS.cleanAndValidateItem dp.id dp.type tu) items)
            with hLdef
          have hfixall : ∀ u ∈ L,
              ValidatorJS.cleanAndValidateItem dp.id dp.type tu u = (u, []) := by
            intro u hu
            rw [hLdef] at hu
            simp only [List.mem_filter, List.mem_map, Function.comp] at hu
            obtain ⟨⟨x, hx, hxu⟩, -⟩ := hu
            have hface : ValidatorJS.cleanAndValidateItem dp.id dp.type tu x = (u, []) := by
              rw [← hxu, ← hflat x hx]
            exact cleanJS_idem dp.id dp.type tu x u hface
          have hnn : ∀ u ∈ L, JScore.isNull u = false := by
            intro u hu
            rw [hLdef] at hu
            simp only [List.mem_filter] at hu
            simpa using hu.2
          have hid : ∀ u ∈ L, (ValidatorJS.cleanAndValidateItem dp.id dp.type tu u).1 = u :=
            fun u hu => by rw [hfixall u hu]
          have hL2 : List.map (Prod.fst ∘ ValidatorJS.cleanAndValidateItem dp.id dp.type tu) L = L := by
            have hcg : ∀ u ∈ L, (Prod.fst ∘ ValidatorJS.cleanAndValidateItem dp.id dp.type tu) u = id u :=
              fun u hu => by simp [Function.comp, hid u hu]
            rw [List.map_congr_left hcg, List.map_id]
          have hF2 : List.filter (fun x => !JScore.isNull x) L = L :=
            List.filter_eq_self.mpr (fun u hu => by simp [hnn u hu])
          have hrl : ValidatorJS.rawLengthOf rd' dp.id = some L.length := by
            simp [ValidatorJS.rawLengthOf, hlk]
          have hc1 : ¬ (0 < items.length ∧ ∀ a ∈ items,
              JScore.isNull (ValidatorJS.cleanAndValidateItem dp.id dp.type tu a).1 = true) := by
            intro hc
            rw [if_pos hc] at htail
            exact List.cons_ne_nil _ _ htail
          rw [if_neg hc1] at htail
          have hc2 : ¬ ((∀ a ∈ items,
              JScore.isNull (ValidatorJS.cleanAndValidateItem dp.id dp.type tu a).1 = true) ∧
              JScore.jsTruthyStr dp.extractionNotes = true ∧
              ValidatorJS.notesOptional dp.extractionNotes = false) := by
            intro hc
            rw [if_pos hc] at htail
            exact List.cons_ne_nil _ _ htail
          simp [ValidatorJS.processDp, hb, hlk, isArr_arr, hrl,
            ValidatorJS.optGtZero, hid, hnn, hfixall, hL2, hF2, List.map_map]
          have hmm : List.filter (fun v => decide ¬ JScore.isNull v = true)
              (List.map Prod.fst (List.map (ValidatorJS.cleanAndValidateItem dp.id dp.type tu) L)) = L := by
            rw [List.map_map, hL2]
            exact List.filter_eq_self.mpr (fun u hu => by simp [hnn u hu])
          refine ⟨fun a ha => by rw [hfixall a ha], ?_⟩
          rw [hmm, hrl]
          rw [if_neg (by rintro ⟨hA, hB⟩; simp at hA; omega)]
          by_cases hL0 : L.length = 0
          · rw [if_neg ?hcond]
            case hcond =>
              rintro ⟨-, hT, hO⟩
              have hLnil : L = [] := List.length_eq_zero.mp hL0
              rw [hLdef] at hLnil
              have hall : ∀ a ∈ items,
                  JScore.isNull (ValidatorJS.cleanAndValidateItem dp.id dp.type tu a).1 = true := by
                intro a ha
                have hmem := List.mem_map_of_mem
                  (Prod.fst ∘ ValidatorJS.cleanAndValidateItem dp.id dp.type tu) ha
                have hx := List.filter_eq_nil_iff.mp hLnil _ hmem
                simpa using hx
              exact hc2 ⟨hall, hT, by simpa using hO⟩
          · rw [if_neg (by rintro ⟨hA, -⟩; exact hL0 hA)]
        | null => simp [JScore.isArr] at hw
        | undef => simp [JScore.isArr] at hw
        | bool b => simp [JScore.isArr] at hw
        | num q => simp [JScore.isArr] at hw
        | str s => simp [JScore.isArr] at hw
        | date iso => simp [JScore.isArr] at hw
        | obj fs => simp [JScore.isArr] at hw
      · have hw' : JScore.isArr w = false := by simpa using hw
        by_cases hnw : JScore.isNullish w = true
        · simp [ValidatorJS.processDp, hb, hlk0, hw', hnw, isArr_arr] at h
        · simp [ValidatorJS.processDp, hb, hlk0, hw', hnw, isArr_arr] at h
  · have hb' : dp.isList = false := by simpa using hb
    cases hlk0 : ValidatorJS.lookupRaw rd dp.id with
    | none =>
      simp [ValidatorJS.processDp, hb', hlk0, JScore.isArr,
        ValidatorJS.cleanAndValidateItem, JScore.isNullish] at h
      obtain ⟨h1, h3⟩ := h
      subst h1
      simp [ValidatorJS.processDp, hb', hlk, JScore.isArr,
        ValidatorJS.cleanAndValidateItem, JScore.isNullish]
      exact h3
    | some w =>
      by_cases hw : JScore.isArr w = true
      · simp [ValidatorJS.processDp, hb', hlk0, hw] at h
      · simp [ValidatorJS.processDp, hb', hlk0, hw] at h
        obtain ⟨h1, h2, h3⟩ := h
        have hface : ValidatorJS.cleanAndValidateItem dp.id dp.type tu w = (v, []) := by
          rw [← h1, ← h2]
        have hgood := cleanJS_good dp.id dp.type tu w v hface
        have hfix := goodJS_clean_fixed dp.id dp.type tu v hgood
        have hva := goodJS_not_arr hgood
        rw [h1] at h3
        simp [ValidatorJS.processDp, hb', hlk, hva, hfix]
        exact h3

/-- Looking up the key just written by `setKey` returns the new value. -/
theorem lookupRaw_setKey_self (l : List (String × JScore.JValue)) (k : String)
    (v : JScore.JValue) :
    ValidatorJS.lookupRaw (ValidatorJS.setKey l k v) k = some v := by
  induction l with
  | nil => simp [ValidatorJS.setKey, ValidatorJS.lookupRaw]
  | cons p rest ih =>
    by_cases hk : p.1 = k
    · simp [ValidatorJS.setKey, ValidatorJS.lookupRaw, hk]
    · simp only [ValidatorJS.setKey]
      rw [if_neg (by simpa using hk)]
      simp only [ValidatorJS.lookupRaw, List.find?]
      rw [show (p.1 == k) = false from by simpa using hk]
      exact ih

/-- `setKey` leaves other keys' lookups unchanged. -/
theorem lookupRaw_setKey_ne (l : List (String × JScore.JValue)) (k k' : String)
    (v : JScore.JValue) (hne : ¬ k' = k) :
    ValidatorJS.lookupRaw (ValidatorJS.setKey l k v) k' = ValidatorJS.lookupRaw l k' := by
  induction l with
  | nil =>
    simp only [ValidatorJS.setKey, ValidatorJS.lookupRaw, List.find?]
    rw [show (k == k') = false from by simpa using fun h => hne (by simpa using h.symm)]
  | cons p rest ih =>
    by_cases hk : p.1 = k
    · simp only [ValidatorJS.setKey]
      rw [if_pos (by simpa using hk)]
      simp only [ValidatorJS.lookupRaw, List.find?]
      cases hpk : (p.1 == k') <;> simp_all [ValidatorJS.lookupRaw]
    · simp only [ValidatorJS.setKey]
      rw [if_neg (by simpa using hk)]
      simp only [ValidatorJS.lookupRaw, List.find?]
      cases hpk : (p.1 == k') <;> simp_all [ValidatorJS.lookupRaw]

/-- A fold of `setKey`s over data points whose ids avoid `k` does not change
the lookup at `k`. -/
theorem lookupRaw_foldl_setKey_notin (f : ValidatorJS.DataPoint → JScore.JValue)
    (dps : List ValidatorJS.DataPoint) :
    ∀ (acc : List (String × JScore.JValue)) (k : String),
      (∀ dp ∈ dps, ¬ dp.id = k) →
      ValidatorJS.lookupRaw
        (dps.foldl (fun acc dp => ValidatorJS.setKey acc dp.id (f dp)) acc) k =
      ValidatorJS.lookupRaw acc k := by
  induction dps with
  | nil => intro acc k _; rfl
  | cons d rest ih =>
    intro acc k hk
    rw [List.foldl_cons, ih _ k (fun dp hdp => hk dp (List.mem_cons_of_mem d hdp)),
      lookupRaw_setKey_ne _ _ _ _ (fun h => hk d (List.mem_cons_self d rest) h.symm)]

/-- Under distinct ids, the validated map built by the fold stores exactly the
per-data-point values. -/
theorem lookupRaw_foldl_setKey (f : ValidatorJS.DataPoint → JScore.JValue)
    (dps : List ValidatorJS.DataPoint) :
    ∀ (acc : List (String × JScore.JValue)),
      (dps.map (·.id)).Nodup →
      ∀ dp ∈ dps,
        ValidatorJS.lookupRaw
          (dps.foldl (fun acc dp => ValidatorJS.setKey acc dp.id (f dp)) acc) dp.id =
        some (f dp) := by
  induction dps with
  | nil => intro acc _ dp hdp; exact absurd hdp (List.not_mem_nil dp)
  | cons d rest ih =>
    intro acc hnd dp hdp
    simp only [List.map_cons, List.nodup_cons] at hnd
    rcases List.mem_cons.mp hdp with rfl | hmem
    · rw [List.foldl_cons,
        lookupRaw_foldl_setKey_notin f rest _ dp.id
          (fun e he h => hnd.1 (h ▸ List.mem_map_of_mem (·.id) he)),
        lookupRaw_setKey_self]
    · rw [List.foldl_cons]
      exact ih _ hnd.2 dp hmem

/-- Folds of `setKey` agree when the stored values agree pointwise. -/
theorem foldl_setKey_congr (dps : List ValidatorJS.DataPoint)
    (f g : ValidatorJS.DataPoint → JScore.JValue)
    (h : ∀ dp ∈ dps, f dp = g dp) :
    ∀ acc, dps.foldl (fun acc dp => ValidatorJS.setKey acc dp.id (f dp)) acc =
      dps.foldl (fun acc dp => ValidatorJS.setKey acc dp.id (g dp)) acc := by
  induction dps with
  | nil => intro acc; rfl
  | cons d rest ih =>
    intro acc
    rw [List.foldl_cons, List.foldl_cons, h d (List.mem_cons_self d rest),
      ih (fun dp hdp => h dp (List.mem_cons_of_mem d hdp))]

/-- C5 (amended): the JS `validateData` is idempotent on issue-free runs over
plans with pairwise-distinct data point ids: if the first run reports no
validation issues, re-validating its `validatedData` returns the same map and
no issues.  In particular (second conjunct) a canonical ISO-8601 date string
validates to itself.  (When the first run does report issues, re-running can
re-report them, so unconditional idempotence fails.) -/
theorem C5_validate_conditional_idempotence :
    (∀ (rd : List (String × JScore.JValue)) (p : ValidatorJS.VPlan)
        (dps : List ValidatorJS.DataPoint) (out : ValidatorJS.VOut),
        p.dataPoints = some dps →
        (dps.map (·.id)).Nodup →
        ValidatorJS.validateData (some rd) (some p) = .ok out →
        out.validationIssues = [] →
        ValidatorJS.validateData (some out.validatedData) (some p) =
          .ok { validatedData := out.validatedData, validationIssues := [] }) ∧
    ValidatorJS.cleanAndValidateItem "d" "date" none
        (.str "2024-01-02T03:04:05.000Z") =
      (.str "2024-01-02T03:04:05.000Z", []) := by
  constructor
  · intro rd p dps out hdp hnd hok hiss
    simp only [ValidatorJS.validateData, hdp, Except.ok.injEq] at hok
    subst hok
    simp only at hiss
    rw [List.flatMap_eq_nil_iff] at hiss
    have hsame : ∀ dp ∈ dps,
        ValidatorJS.processDp
          (dps.foldl (fun acc dp =>
            ValidatorJS.setKey acc dp.id (ValidatorJS.processDp rd p.targetUrl dp).1) [])
          p.targetUrl dp =
        ((ValidatorJS.processDp rd p.targetUrl dp).1, []) := by
      intro dp hdp2
      have hv : ValidatorJS.processDp rd p.targetUrl dp =
          ((ValidatorJS.processDp rd p.targetUrl dp).1, []) := by
        rw [← hiss dp hdp2]
      exact processDpJS_idem rd _ p.targetUrl dp _ hv
        (lookupRaw_foldl_setKey _ dps [] hnd dp hdp2)
    simp only [ValidatorJS.validateData, hdp, Except.ok.injEq]
    rw [ValidatorJS.VOut.mk.injEq]
    refine ⟨?_, ?_⟩
    · exact foldl_setKey_congr dps _ _ (fun dp hdp2 => by rw [hsame dp hdp2]) []
    · rw [List.flatMap_eq_nil_iff]
      intro dp hdp2
      rw [hsame dp hdp2]
  · rfl

/-- A plan with a single date field `d`. -/
def c5plan : ValidatorJS.VPlan :=
  { dataPoints := some [{ id := "d", type := "date" }], targetUrl := none }

/-- The issue-free first run of the date example. -/
def c5out : ValidatorJS.VOut :=
  { validatedData := [("d", JScore.JValue.str "2024-01-05T00:00:00.000Z")], validationIssues := [] }

/-- Witness for C5: re-validating the validated date map returns it unchanged
with no issues (the date string "2024-01-05" was normalised to ISO once and
then validates to itself). -/
theorem C5_witness :
    ValidatorJS.validateData (some c5out.validatedData) (some c5plan) =
      .ok { validatedData := c5out.validatedData, validationIssues := [] } :=
  C5_validate_conditional_idempotence.1 [("d", JScore.JValue.str "2024-01-05")]
    c5plan [{ id := "d", type := "date" }] c5out rfl (by simp) rfl rfl

/-- A plan with a single number field `n`. -/
def c5badPlan : ValidatorJS.VPlan :=
  { dataPoints := some [{ id := "n", type := "number" }], targetUrl := none }

/-- The output of validating `{n: "abc"}` against `c5badPlan`: the value is
kept verbatim and an issue is logged. -/
def c5badOut : ValidatorJS.VOut :=
  { validatedData := [("n", JScore.JValue.str "abc")], validationIssues := [{ dpId := "n", issue := "Type mismatch: Expected number, failed to parse from string \"" ++ JScore.jsToString (JScore.JValue.str "abc") ++ "\".", value := some (JScore.JValue.str "abc"), originalCount := none }] }

/-- Counterexample for C5: `validateData` applied to its own validated output
`{n: "abc"}` re-reports the number-parse issue, so a second run is not
issue-free — unconditional idempotence (same values and no new issues) fails. -/
theorem C5_counterexample :
    ValidatorJS.validateData (some [("n", JScore.JValue.str "abc")]) (some c5badPlan) =
      .ok c5badOut ∧
    c5badOut.validatedData = [("n", JScore.JValue.str "abc")] ∧
    ¬ c5badOut.validationIssues = [] :=
  ⟨by rfl, rfl, by simp [c5badOut]⟩
